import Mathlib

set_option maxRecDepth 4000

/-!
Shallow embedding of pywwt layers.py (src/pywwt/layers.py): the unit
resolver (VALID_LON_UNITS / VALID_ALT_UNITS together with the astropy
unit values they mention), the column guesser guess_lon_lat_columns, the
TableLayer trait state with its validators and observers, construction,
update_data, and the LayerManager / layer removal protocol.

External collaborators (astropy units, astropy tables, traitlets) are
modelled at the granularity the source uses them: a unit is a dimension
with a rational scale relative to a fixed base unit of that dimension,
and astropy equality of units (convertible with factor one) becomes
equality of dimension and scale; a table is an ordered list of named
columns each carrying an optional unit and string data; a traitlets
assignment validates, stores only on success, and notifies observers
only when the stored value actually changed, class-level observers
running before the instance observer installed in the constructor.
-/

/-- Physical dimension of a unit in the model (only the dimensions the
source mentions are needed). -/
inductive Dim where
  | angle
  | time
  | length
deriving DecidableEq, Repr

/-- Model of an astropy unit: a dimension together with a rational scale
num/den relative to a fixed base unit of that dimension (degree, second,
metre). -/
structure AUnit where
  dim : Dim
  num : Nat
  den : Nat
deriving DecidableEq, Repr

/-- Model of astropy unit equality: two units compare equal exactly when
they are convertible with conversion factor one, i.e. same dimension and
same scale. -/
def uEq (a b : AUnit) : Bool :=
  a.dim == b.dim && a.num * b.den == b.num * a.den

def deg : AUnit := ⟨Dim.angle, 1, 1⟩

def hourangle : AUnit := ⟨Dim.angle, 15, 1⟩

def arcminute : AUnit := ⟨Dim.angle, 1, 60⟩

def hour : AUnit := ⟨Dim.time, 3600, 1⟩

def secondU : AUnit := ⟨Dim.time, 1, 1⟩

def meter : AUnit := ⟨Dim.length, 1, 1⟩

def foot : AUnit := ⟨Dim.length, 3048, 10000⟩

def inch : AUnit := ⟨Dim.length, 254, 10000⟩

def mile : AUnit := ⟨Dim.length, 1609344, 1000⟩

def km : AUnit := ⟨Dim.length, 1000, 1⟩

def au : AUnit := ⟨Dim.length, 149597870700, 1⟩

def lyr : AUnit := ⟨Dim.length, 9460730472580800, 1⟩

/-- Parsec scale in metres (nearest integer; only distinctness from the
other members and self-equality matter to the source). -/
def pc : AUnit := ⟨Dim.length, 30856775814913673, 1⟩

def mpc : AUnit := ⟨Dim.length, 30856775814913673000000, 1⟩

/-- VALID_LON_UNITS from the source: insertion-ordered mapping from unit
to its display token (a Python dict, modelled as an association list in
insertion order). -/
def VALID_LON_UNITS : List (AUnit × String) :=
  [(deg, "degrees"), (hour, "hours"), (hourangle, "hours")]

/-- VALID_ALT_UNITS from the source. -/
def VALID_ALT_UNITS : List (AUnit × String) :=
  [(meter, "meters"), (foot, "feet"), (inch, "inches"), (mile, "miles"),
   (km, "kilometers"), (au, "astronomicalUnits"), (lyr, "lightYears"),
   (pc, "parsecs"), (mpc, "megaParsecs")]

/-- VALID_ALT_TYPES from the source. -/
def VALID_ALT_TYPES : List String :=
  ["depth", "altitude", "distance", "seaLevel", "terrain"]

/-- Iterating over a Python dict yields its keys in insertion order. -/
def dictKeys (d : List (AUnit × String)) : List AUnit := d.map Prod.fst

/-- Python membership test on a dict keyed by units: equality-based key
lookup. -/
def dictHasKey (d : List (AUnit × String)) (u : AUnit) : Bool :=
  (dictKeys d).any (fun k => uEq u k)

/-- Python item lookup on a dict keyed by units. -/
def dictGet (d : List (AUnit × String)) (u : AUnit) : Option String :=
  (d.find? (fun kv => uEq u kv.1)).map Prod.snd

/-- pick_unit_if_available from the source: return the first valid unit
that compares equal to the argument, else the argument unchanged. -/
def pick_unit_if_available (unit : AUnit) (valid_units : List AUnit) : AUnit :=
  match valid_units.find? (fun v => uEq unit v) with
  | some v => v
  | none => unit

/-- pick_unit_if_available applied to a Python value that may be None
(column units are optional): None compares equal to no unit, so it is
returned unchanged. -/
def pick_unit_opt (unit : Option AUnit) (valid_units : List AUnit) : Option AUnit :=
  match unit with
  | some x => some (pick_unit_if_available x valid_units)
  | none => none

/-- Model of Python str() on the astropy units used here (the names
astropy prints). -/
def strUnit (x : AUnit) : String :=
  if x = deg then "deg"
  else if x = hour then "h"
  else if x = hourangle then "hourangle"
  else if x = arcminute then "arcmin"
  else if x = secondU then "s"
  else if x = meter then "m"
  else if x = foot then "ft"
  else if x = inch then "inch"
  else if x = mile then "mi"
  else if x = km then "km"
  else if x = au then "AU"
  else if x = lyr then "lyr"
  else if x = pc then "pc"
  else if x = mpc then "Mpc"
  else "unknown"

/-- Model of Python str.lower on the ASCII names used here (character by
character). -/
def strLower (s : String) : String := String.mk (s.data.map Char.toLower)

/-- Does the first character list start with the second? -/
def beginsWithChars : List Char → List Char → Bool
  | _, [] => true
  | [], _ :: _ => false
  | a :: as, b :: bs => a == b && beginsWithChars as bs

/-- Model of Python str.startswith. -/
def beginsWith (s p : String) : Bool := beginsWithChars s.data p.data

/-- Lexicographic comparison of character lists by code point. -/
def charsLe : List Char → List Char → Bool
  | [], _ => true
  | _ :: _, [] => false
  | a :: as, b :: bs =>
    if a.toNat < b.toNat then true
    else if b.toNat < a.toNat then false
    else charsLe as bs

/-- Model of Python string comparison (code-point lexicographic). -/
def strLe (s t : String) : Bool := charsLe s.data t.data

/-- Insert a string into an already sorted list (ascending). -/
def insertStr (s : String) : List String → List String
  | [] => [s]
  | t :: ts => if strLe s t then s :: t :: ts else t :: insertStr s ts

/-- Model of Python sorted() on strings: stable ascending sort. -/
def sortStrings : List String → List String
  | [] => []
  | s :: ss => insertStr s (sortStrings ss)

def slashJoin (l : List String) : String := String.intercalate "/" l

/-- A value a trait can hold or be assigned (strings, numbers, units).
The two float traits of the source (size_scale, opacity) only ever carry
their integral defaults in the behaviour under study, so numbers are
modelled as integers. -/
inductive TValue where
  | str (s : String)
  | num (n : Int)
  | unit (u : AUnit)
deriving DecidableEq, Repr

/-- Model of astropy u.Unit applied to a proposal: a unit value passes
through, a string is parsed against the vocabulary the source exercises.
Imperial unit names are recognised only when imperial recognition is
enabled (u.imperial.enable in the source). -/
def uUnitParse (imperial : Bool) : TValue → Option AUnit
  | TValue.unit u => some u
  | TValue.str s =>
    if s = "deg" || s = "degree" || s = "degrees" then some deg
    else if s = "hourangle" then some hourangle
    else if s = "h" || s = "hour" || s = "hr" then some hour
    else if s = "arcmin" || s = "arcminute" then some arcminute
    else if s = "s" || s = "second" then some secondU
    else if s = "m" || s = "meter" || s = "metre" then some meter
    else if s = "km" || s = "kilometer" then some km
    else if s = "AU" || s = "au" then some au
    else if s = "lyr" || s = "lightyear" then some lyr
    else if s = "pc" || s = "parsec" then some pc
    else if s = "Mpc" then some mpc
    else if imperial && (s = "ft" || s = "foot") then some foot
    else if imperial && s = "inch" then some inch
    else if imperial && (s = "mi" || s = "mile") then some mile
    else none
  | TValue.num _ => none

/-- The message of the ValueError raised by _check_lon_unit: the str()
names of all legal units, sorted, joined by slashes. -/
def lon_unit_error : String :=
  "lon_unit should be one of " ++
    slashJoin (sortStrings ((dictKeys VALID_LON_UNITS).map strUnit))

/-- The message of the ValueError raised by _check_alt_unit. -/
def alt_unit_error : String :=
  "alt_unit should be one of " ++
    slashJoin (sortStrings ((dictKeys VALID_ALT_UNITS).map strUnit))

/-- The message of the ValueError raised by _check_alt_type (the source
does not sort here). -/
def alt_type_error : String :=
  "alt_type should be one of " ++ slashJoin VALID_ALT_TYPES

/-- TableLayer._check_lon_unit: parse the proposal, canonicalise through
pick_unit_if_available, accept when the result is a key of
VALID_LON_UNITS, else raise the ValueError. -/
def check_lon_unit (v : TValue) : Except String AUnit :=
  match uUnitParse false v with
  | none => Except.error "invalid unit"
  | some unit0 =>
    if dictHasKey VALID_LON_UNITS (pick_unit_if_available unit0 (dictKeys VALID_LON_UNITS)) then
      Except.ok (pick_unit_if_available unit0 (dictKeys VALID_LON_UNITS))
    else Except.error lon_unit_error

/-- TableLayer._check_alt_unit: same with imperial recognition enabled
for the parse. -/
def check_alt_unit (v : TValue) : Except String AUnit :=
  match uUnitParse true v with
  | none => Except.error "invalid unit"
  | some unit0 =>
    if dictHasKey VALID_ALT_UNITS (pick_unit_if_available unit0 (dictKeys VALID_ALT_UNITS)) then
      Except.ok (pick_unit_if_available unit0 (dictKeys VALID_ALT_UNITS))
    else Except.error alt_unit_error

/-- One stem pair iteration of guess_lon_lat_columns: first exact
(already lowercased) matches - note the source returns the lowercase
stems themselves here - then prefix matches, which return the
original-case column names. -/
def tryStemPair (colnames colnames_lower : List String) (lon lat : String) :
    Option (String × String) :=
  if colnames_lower.count lon == 1 && colnames_lower.count lat == 1 then
    some (lon, lat)
  else
    let lon_match := colnames_lower.map (fun c => beginsWith c lon)
    let lat_match := colnames_lower.map (fun c => beginsWith c lat)
    if lon_match.count true == 1 && lat_match.count true == 1 then
      some (colnames.getD (lon_match.findIdx (fun b => b)) "",
            colnames.getD (lat_match.findIdx (fun b => b)) "")
    else
      none

/-- guess_lon_lat_columns from the source: try the stem pairs
(ra, dec), (lon, lat), (lng, lat) in order; (none, none) when no pair
yields a unique match. -/
def guess_lon_lat_columns (colnames : List String) : Option String × Option String :=
  let colnames_lower := colnames.map strLower
  match tryStemPair colnames colnames_lower "ra" "dec" with
  | some (a, b) => (some a, some b)
  | none =>
    match tryStemPair colnames colnames_lower "lon" "lat" with
    | some (a, b) => (some a, some b)
    | none =>
      match tryStemPair colnames colnames_lower "lng" "lat" with
      | some (a, b) => (some a, some b)
      | none => (none, none)

/-- A table column (astropy model): a name, an optional unit, and string
cell data. -/
structure Column where
  name : String
  unit : Option AUnit
  data : List String
deriving DecidableEq, Repr

/-- An astropy table: an ordered list of named columns. -/
structure Table where
  cols : List Column
deriving DecidableEq, Repr

def Table.colnames (t : Table) : List String := t.cols.map Column.name

/-- Column lookup, table[name]: none models the KeyError astropy raises
for a missing column (and the error raised when the table reference
itself is absent, which no reachable call exercises). -/
def tableCol (t : Option Table) (name : String) : Option Column :=
  match t with
  | none => none
  | some tab => tab.cols.find? (fun c => c.name == name)

/-- An outbound message to the parent context (_send_msg). -/
inductive Msg where
  | create (id table frame : String)
  | update (id table : String)
  | set (id setting : String) (value : TValue)
  | remove (id : String)
deriving DecidableEq, Repr

/-- The trait state of a TableLayer, together with the plain attributes
set by the constructor. Defaults: empty strings for the column traits,
unset units, size_scale 10, color white, opacity 1. -/
structure TableLayer where
  table : Option Table
  frame : String
  id : String
  manager : Option String
  removed : Bool
  lon_att : String
  lon_unit : Option AUnit
  lat_att : String
  alt_att : String
  alt_unit : Option AUnit
  alt_type : String
  cmap_att : String
  size_att : String
  size_scale : Int
  color : String
  opacity : Int
deriving DecidableEq, Repr

/-- A TableLayer right after the plain-attribute assignments at the top
of __init__ (trait defaults in place). -/
def freshLayer (table : Option Table) (frame id : String) : TableLayer :=
  ⟨table, frame, id, none, false, "", none, "", "", none, "", "", "", 10, "white", 1⟩

/-- The trait names of TableLayer (self.trait_names() in the source). -/
def trait_names : List String :=
  ["lon_att", "lon_unit", "lat_att", "alt_att", "alt_unit", "alt_type",
   "cmap_att", "size_att", "size_scale", "color", "opacity"]

/-- The wwt metadata tag of each trait (trait_metadata(name, wwt)); a
trait without the tag yields none, as does any non-trait name. -/
def wwtName : String → Option String
  | "lon_att" => some "lngColumn"
  | "lon_unit" => some "raUnits"
  | "lat_att" => some "latColumn"
  | "alt_att" => some "altColumn"
  | "alt_unit" => some "altUnit"
  | "alt_type" => some "altType"
  | "cmap_att" => some "colorMapColumn"
  | "size_att" => some "sizeColumn"
  | "size_scale" => some "scaleFactor"
  | "color" => some "color"
  | "opacity" => some "opacity"
  | _ => none

/-- TableLayer._on_trait_change: for a trait carrying the wwt tag, send a
table_layer_set message; the two unit traits are first translated to
their display token by re-running the validator and indexing the unit
dict. Returns the messages sent and the error, if any, the handler
raised. -/
def on_trait_change (l : TableLayer) (name : String) (newv : TValue) :
    List Msg × Option String :=
  match wwtName name with
  | none => ([], none)
  | some w =>
    if name = "alt_unit" then
      match check_alt_unit newv with
      | Except.error e => ([], some e)
      | Except.ok u =>
        match dictGet VALID_ALT_UNITS u with
        | some tok => ([Msg.set l.id w (TValue.str tok)], none)
        | none => ([], some "KeyError")
    else if name = "lon_unit" then
      match check_lon_unit newv with
      | Except.error e => ([], some e)
      | Except.ok u =>
        match dictGet VALID_LON_UNITS u with
        | some tok => ([Msg.set l.id w (TValue.str tok)], none)
        | none => ([], some "KeyError")
    else ([Msg.set l.id w newv], none)

/-- The outcome of an operation on a layer: the layer state afterwards
(on an error, the state at the point the exception was raised - mutations
already performed persist, exactly as in Python), the messages sent, the
warnings emitted, and the error, if any. -/
structure Out where
  layer : TableLayer
  msgs : List Msg
  warns : List String
  err : Option String
deriving DecidableEq, Repr

def okOut (l : TableLayer) : Out := ⟨l, [], [], none⟩

/-- Run the instance-level observer for one changed trait and wrap the
result. -/
def emit (l : TableLayer) (name : String) (v : TValue) : Out :=
  ⟨l, (on_trait_change l name v).1, [], (on_trait_change l name v).2⟩

/-- Sequence two operations: the second runs only when the first did not
raise; messages and warnings accumulate (a Python exception aborts the
rest of the statement sequence but not what already happened). -/
def seqOut (o : Out) (f : TableLayer → Out) : Out :=
  match o.err with
  | some _ => o
  | none =>
    let o2 := f o.layer
    ⟨o2.layer, o.msgs ++ o2.msgs, o.warns ++ o2.warns, o2.err⟩

/-- Assignment self.lon_unit = v (traitlets semantics): validate via
_check_lon_unit; on failure the attribute keeps its value; on success
store and, when the stored value changed, notify the instance observer. -/
def set_lon_unit (l : TableLayer) (v : TValue) : Out :=
  match check_lon_unit v with
  | Except.error e => ⟨l, [], [], some e⟩
  | Except.ok u =>
    if l.lon_unit = some u then okOut l
    else emit { l with lon_unit := some u } "lon_unit" (TValue.unit u)

/-- Assignment self.alt_unit = v. -/
def set_alt_unit (l : TableLayer) (v : TValue) : Out :=
  match check_alt_unit v with
  | Except.error e => ⟨l, [], [], some e⟩
  | Except.ok u =>
    if l.alt_unit = some u then okOut l
    else emit { l with alt_unit := some u } "alt_unit" (TValue.unit u)

/-- TableLayer._on_lon_att_change: when lon_att is nonempty, look the
column up (raising KeyError when absent), and set lon_unit when the
column unit resolves against VALID_LON_UNITS; warn (without failing)
when it carries a non-resolving unit; do nothing when it has none. -/
def on_lon_att_change (l : TableLayer) : Out :=
  if l.lon_att.length = 0 then okOut l
  else
    match tableCol l.table l.lon_att with
    | none => ⟨l, [], [], some ("KeyError: " ++ l.lon_att)⟩
    | some column =>
      match pick_unit_opt column.unit (dictKeys VALID_LON_UNITS) with
      | some unit1 =>
        if dictHasKey VALID_LON_UNITS unit1 then
          set_lon_unit l (TValue.unit unit1)
        else
          ⟨l, [],
           ["Column " ++ l.lon_att ++ " has units of " ++ strUnit unit1 ++
            " but this is not a valid unit of longitude - set the unit directly with lon_unit"],
           none⟩
      | none => okOut l

/-- TableLayer._on_alt_att_change: same against VALID_ALT_UNITS. -/
def on_alt_att_change (l : TableLayer) : Out :=
  if l.alt_att.length = 0 then okOut l
  else
    match tableCol l.table l.alt_att with
    | none => ⟨l, [], [], some ("KeyError: " ++ l.alt_att)⟩
    | some column =>
      match pick_unit_opt column.unit (dictKeys VALID_ALT_UNITS) with
      | some unit1 =>
        if dictHasKey VALID_ALT_UNITS unit1 then
          set_alt_unit l (TValue.unit unit1)
        else
          ⟨l, [],
           ["Column " ++ l.alt_att ++ " has units of " ++ strUnit unit1 ++
            " but this is not a valid unit of altitude - set the unit directly with alt_unit"],
           none⟩
      | none => okOut l

/-- Assignment self.lon_att = s: store when changed, then run the
class-level observer _on_lon_att_change followed by the instance
observer (traitlets notifies in registration order). -/
def set_lon_att (l : TableLayer) (s : String) : Out :=
  if s = l.lon_att then okOut l
  else
    seqOut (on_lon_att_change { l with lon_att := s })
      (fun l2 => emit l2 "lon_att" (TValue.str s))

/-- Assignment self.lat_att = s (no class-level observer). -/
def set_lat_att (l : TableLayer) (s : String) : Out :=
  if s = l.lat_att then okOut l
  else emit { l with lat_att := s } "lat_att" (TValue.str s)

/-- Assignment self.alt_att = s. -/
def set_alt_att (l : TableLayer) (s : String) : Out :=
  if s = l.alt_att then okOut l
  else
    seqOut (on_alt_att_change { l with alt_att := s })
      (fun l2 => emit l2 "alt_att" (TValue.str s))

/-- Assignment self.alt_type = s: validated against VALID_ALT_TYPES. -/
def set_alt_type (l : TableLayer) (s : String) : Out :=
  if VALID_ALT_TYPES.contains s then
    if s = l.alt_type then okOut l
    else emit { l with alt_type := s } "alt_type" (TValue.str s)
  else ⟨l, [], [], some alt_type_error⟩

def set_cmap_att (l : TableLayer) (s : String) : Out :=
  if s = l.cmap_att then okOut l
  else emit { l with cmap_att := s } "cmap_att" (TValue.str s)

def set_size_att (l : TableLayer) (s : String) : Out :=
  if s = l.size_att then okOut l
  else emit { l with size_att := s } "size_att" (TValue.str s)

def set_size_scale (l : TableLayer) (n : Int) : Out :=
  if n = l.size_scale then okOut l
  else emit { l with size_scale := n } "size_scale" (TValue.num n)

def set_color (l : TableLayer) (s : String) : Out :=
  if s = l.color then okOut l
  else emit { l with color := s } "color" (TValue.str s)

def set_opacity (l : TableLayer) (n : Int) : Out :=
  if n = l.opacity then okOut l
  else emit { l with opacity := n } "opacity" (TValue.num n)

/-- Dispatch one keyword-argument trait assignment by name (the
setattr each key of the overrides mapping triggers). A value of the
wrong kind for the trait models the TraitError traitlets raises before
storing anything. -/
def setTrait (l : TableLayer) (k : String) (v : TValue) : Out :=
  if k = "lon_att" then
    match v with
    | TValue.str s => set_lon_att l s
    | _ => ⟨l, [], [], some "TraitError"⟩
  else if k = "lon_unit" then set_lon_unit l v
  else if k = "lat_att" then
    match v with
    | TValue.str s => set_lat_att l s
    | _ => ⟨l, [], [], some "TraitError"⟩
  else if k = "alt_att" then
    match v with
    | TValue.str s => set_alt_att l s
    | _ => ⟨l, [], [], some "TraitError"⟩
  else if k = "alt_unit" then set_alt_unit l v
  else if k = "alt_type" then
    match v with
    | TValue.str s => set_alt_type l s
    | _ => ⟨l, [], [], some "TraitError"⟩
  else if k = "cmap_att" then
    match v with
    | TValue.str s => set_cmap_att l s
    | _ => ⟨l, [], [], some "TraitError"⟩
  else if k = "size_att" then
    match v with
    | TValue.str s => set_size_att l s
    | _ => ⟨l, [], [], some "TraitError"⟩
  else if k = "size_scale" then
    match v with
    | TValue.num n => set_size_scale l n
    | _ => ⟨l, [], [], some "TraitError"⟩
  else if k = "color" then
    match v with
    | TValue.str s => set_color l s
    | _ => ⟨l, [], [], some "TraitError"⟩
  else if k = "opacity" then
    match v with
    | TValue.num n => set_opacity l n
    | _ => ⟨l, [], [], some "TraitError"⟩
  else ⟨l, [], [], some "TraitError"⟩

/-- CRLF normalisation of the serialized table (csv.replace of newline
with carriage-return newline), character by character. -/
def crlfChars : List Char → List Char
  | [] => []
  | c :: cs => if c == '\n' then '\x0d' :: '\n' :: crlfChars cs else c :: crlfChars cs

def crlf (s : String) : String := String.mk (crlfChars s.data)

/-- One row of the comma-delimited serialization. -/
def tableRow (t : Table) (i : Nat) : String :=
  String.intercalate "," (t.cols.map (fun c => c.data.getD i ""))

/-- The ascii.basic writer with comma delimiter and no comments: a header
row of column names followed by the data rows, newline-terminated. -/
def csvOfTable (t : Table) : String :=
  let nrows := match t.cols with
    | [] => 0
    | c :: _ => c.data.length
  String.intercalate "\n"
    (String.intercalate "," t.colnames :: (List.range nrows).map (tableRow t)) ++ "\n"

/-- Python ascii encoding with errors=replace: every character above
code point 127 becomes a question mark byte. -/
def asciiReplaceBytes (s : String) : List Nat :=
  s.data.map (fun c => if c.toNat < 128 then c.toNat else 63)

def b64chars : List Char :=
  "ABCDEFGHIJKLMNOPQRSTUVWXYZabcdefghijklmnopqrstuvwxyz0123456789+/".data

def b64char (n : Nat) : Char := b64chars.getD n 'A'

/-- Standard base64 of a byte list. -/
def b64encode : List Nat → String
  | [] => ""
  | [a] => String.mk [b64char (a / 4), b64char (a % 4 * 16), '=', '=']
  | [a, b] =>
    String.mk [b64char (a / 4), b64char (a % 4 * 16 + b / 16), b64char (b % 16 * 4), '=']
  | a :: b :: c :: rest =>
    String.mk [b64char (a / 4), b64char (a % 4 * 16 + b / 16),
               b64char (b % 16 * 4 + c / 64), b64char (c % 64)] ++ b64encode rest

/-- TableLayer._table_b64: serialize, CRLF-normalise, encode. The error
is the AttributeError Python raises when the stored table is None (the
write call on None). -/
def table_b64 : Option Table → Except String String
  | none => Except.error "AttributeError: table is None"
  | some t => Except.ok (b64encode (asciiReplaceBytes (crlf (csvOfTable t))))

/-- Fallback of lon_guess or colnames[0] (Python or: the guess is used
unless falsy, i.e. None or empty; none models the IndexError on a table
with too few columns). -/
def defaultAttVal (g : Option String) (t : Table) (i : Nat) : Option String :=
  match g with
  | some s => if s = "" then t.colnames.get? i else some s
  | none => t.colnames.get? i

/-- TableLayer.__init__ after the plain attribute assignments: send the
create message (after building the table snapshot, so a None table
raises before anything is sent), force-send the size_scale, color and
opacity defaults, install the instance observer, reject unknown override
keys with KeyError, apply the overrides, then default lon_att and
lat_att from the column guesser unless overridden. -/
def applyKwargs (l : TableLayer) : List (String × TValue) → Out
  | [] => okOut l
  | (k, v) :: rest => seqOut (setTrait l k v) (fun l2 => applyKwargs l2 rest)

def initTableLayer (table : Option Table) (frame id : String)
    (kwargs : List (String × TValue)) : Out :=
  let l0 := freshLayer table frame id
  match table with
  | none =>
    match table_b64 none with
    | Except.error e => ⟨l0, [], [], some e⟩
    | Except.ok _ => ⟨l0, [], [], some "unreachable"⟩
  | some t =>
    match table_b64 (some t) with
    | Except.error e => ⟨l0, [], [], some e⟩
    | Except.ok b64 =>
    let o0 : Out := ⟨l0, [Msg.create id b64 frame], [], none⟩
    let o1 := seqOut o0 (fun l => emit l "size_scale" (TValue.num l.size_scale))
    let o2 := seqOut o1 (fun l => emit l "color" (TValue.str l.color))
    let o3 := seqOut o2 (fun l => emit l "opacity" (TValue.num l.opacity))
    let o4 := seqOut o3 (fun l =>
      if kwargs.any (fun kv => !(trait_names.contains kv.1)) then
        ⟨l, [], [], some "KeyError: a key does not match any layer trait name"⟩
      else applyKwargs l kwargs)
    let g := guess_lon_lat_columns t.colnames
    let o5 := seqOut o4 (fun l =>
      if (kwargs.map Prod.fst).contains "lon_att" then okOut l
      else
        match defaultAttVal g.1 t 0 with
        | some s => set_lon_att l s
        | none => ⟨l, [], [], some "IndexError"⟩)
    seqOut o5 (fun l =>
      if (kwargs.map Prod.fst).contains "lat_att" then okOut l
      else
        match defaultAttVal g.2 t 1 with
        | some s => set_lat_att l s
        | none => ⟨l, [], [], some "IndexError"⟩)

/-- TableLayer.update_data: store the new table reference first, then
build and send the update snapshot (so a None table is stored and only
then raises, losing the previous table), then re-derive alt_att,
lon_att and lat_att against the new columns. -/
def update_data (l : TableLayer) (table : Option Table) : Out :=
  let l1 := { l with table := table }
  match table with
  | none =>
    match table_b64 none with
    | Except.error e => ⟨l1, [], [], some e⟩
    | Except.ok _ => ⟨l1, [], [], some "unreachable"⟩
  | some t =>
    match table_b64 (some t) with
    | Except.error e => ⟨l1, [], [], some e⟩
    | Except.ok b64 =>
    let o0 : Out := ⟨l1, [Msg.update l.id b64], [], none⟩
    let o1 := seqOut o0 (fun l2 =>
      if l2.alt_att.length > 0 then
        if t.colnames.contains l2.alt_att then on_alt_att_change l2
        else set_alt_att l2 ""
      else okOut l2)
    let g := guess_lon_lat_columns t.colnames
    let o2 := seqOut o1 (fun l2 =>
      if t.colnames.contains l2.lon_att then on_lon_att_change l2
      else
        match defaultAttVal g.1 t 0 with
        | some s => set_lon_att l2 s
        | none => ⟨l2, [], [], some "IndexError"⟩)
    seqOut o2 (fun l2 =>
      if t.colnames.contains l2.lat_att then okOut l2
      else
        match defaultAttVal g.2 t 1 with
        | some s => set_lat_att l2 s
        | none => ⟨l2, [], [], some "IndexError"⟩)

/-- update_data() called with no argument: the table parameter defaults
to None. -/
def update_data_noarg (l : TableLayer) : Out := update_data l none

/-- The part of a layer the manager protocol reads and writes: the
removed flag and the back-reference to the owning manager (identified by
a manager id string). -/
structure LayerCore where
  removed : Bool
  manager : Option String
deriving DecidableEq, Repr

/-- A world of LayerManagers and layers for the container protocol:
managers (by id) each own an ordered list of layer ids; layers (by id)
carry their core state. Association lists model Python object graphs. -/
structure World where
  managers : List (String × List String)
  layers : List (String × LayerCore)
deriving DecidableEq, Repr

def lookupL (w : World) (lid : String) : Option LayerCore :=
  (w.layers.find? (fun p => p.1 == lid)).map Prod.snd

def lookupM (w : World) (mid : String) : Option (List String) :=
  (w.managers.find? (fun p => p.1 == mid)).map Prod.snd

def updL (w : World) (lid : String) (cfg : LayerCore) : World :=
  ⟨w.managers, w.layers.map (fun p => if p.1 == lid then (p.1, cfg) else p)⟩

def updM (w : World) (mid : String) (lst : List String) : World :=
  ⟨w.managers.map (fun p => if p.1 == mid then (p.1, lst) else p), w.layers⟩

/- TableLayer.remove and LayerManager.remove_layer, mutually recursive
exactly as in the source (remove asks its manager to detach it, and
remove_layer re-enters remove, which the removed flag cuts short). The
fuel argument bounds the re-entrancy depth, which never exceeds three. -/
mutual

def layer_remove_f : Nat → World → String → World × List Msg × Option String
  | 0, w, _ => (w, [], some "fuel exhausted")
  | Nat.succ fuel, w, lid =>
    match lookupL w lid with
    | none => (w, [], some "AttributeError: no such layer")
    | some cfg =>
      if cfg.removed then (w, [], none)
      else
        let w1 := updL w lid ⟨true, cfg.manager⟩
        match cfg.manager with
        | none => (w1, [Msg.remove lid], none)
        | some mid =>
          match manager_remove_layer_f fuel w1 mid lid with
          | (w2, ms2, e2) => (w2, Msg.remove lid :: ms2, e2)

def manager_remove_layer_f : Nat → World → String → String → World × List Msg × Option String
  | 0, w, _, _ => (w, [], some "fuel exhausted")
  | Nat.succ fuel, w, mid, lid =>
    match lookupM w mid with
    | none => (w, [], some "AttributeError: no such manager")
    | some lst =>
      if lst.contains lid then
        match layer_remove_f fuel w lid with
        | (w1, ms, some e) => (w1, ms, some e)
        | (w1, ms, none) =>
          match lookupM w1 mid with
          | none => (w1, ms, some "AttributeError: no such manager")
          | some lst1 =>
            if lst1.contains lid then (updM w1 mid (lst1.erase lid), ms, none)
            else (w1, ms, none)
      else (w, [], some "ValueError: layer not in layer manager")

end

/-- TableLayer.remove with enough fuel for the bounded re-entrancy. -/
def layer_remove (w : World) (lid : String) : World × List Msg × Option String :=
  layer_remove_f 9 w lid

/-- LayerManager.remove_layer with enough fuel. -/
def manager_remove_layer (w : World) (mid lid : String) :
    World × List Msg × Option String :=
  manager_remove_layer_f 9 w mid lid

/-- LayerManager._add_layer: raise when the layer is already present in
this manager, else append it and point its back-reference here. -/
def manager_add_layer (w : World) (mid lid : String) : World × Option String :=
  match lookupM w mid with
  | none => (w, some "AttributeError: no such manager")
  | some lst =>
    if lst.contains lid then (w, some "ValueError: layer already exists in layer manager")
    else
      match lookupL w lid with
      | none => (w, some "AttributeError: no such layer")
      | some cfg =>
        (updL (updM w mid (lst ++ [lid])) lid ⟨cfg.removed, some mid⟩, none)

/-- LayerManager.add_data_layer at the container level: construct a
fresh layer (back-reference unset, removed flag clear) and attach it. -/
def manager_add_data_layer (w : World) (mid lid : String) : World × Option String :=
  manager_add_layer ⟨w.managers, w.layers ++ [(lid, ⟨false, none⟩)]⟩ mid lid

/-- The container operations a client can perform. -/
inductive WOp where
  | attach (mid lid : String)
  | addData (mid lid : String)
  | removeLayer (mid lid : String)
  | layerRem (lid : String)
deriving DecidableEq, Repr

def stepW (w : World) : WOp → World
  | WOp.attach mid lid => (manager_add_layer w mid lid).1
  | WOp.addData mid lid => (manager_add_data_layer w mid lid).1
  | WOp.removeLayer mid lid => (manager_remove_layer w mid lid).1
  | WOp.layerRem lid => (layer_remove w lid).1

def runW (w : World) : List WOp → World
  | [] => w
  | op :: ops => runW (stepW w op) ops

/-- Is the back-reference of layer lid pointing at manager mid? -/
def backrefOk (w : World) (mid lid : String) : Bool :=
  match lookupL w lid with
  | some cfg => cfg.manager == some mid
  | none => false

/-- The LayerManager invariant of the specification, plus the
representation well-formedness of the world (ids are unique): no layer
appears twice in a manager sequence, and every layer in a manager
sequence has its back-reference pointing at that manager. -/
def invariantW (w : World) : Bool :=
  decide (w.managers.map Prod.fst).Nodup &&
  decide (w.layers.map Prod.fst).Nodup &&
  w.managers.all (fun p => decide p.2.Nodup && p.2.all (fun lid => backrefOk w p.1 lid))

/-- The restriction under which the invariant is preserved: attach is
never applied to a layer currently sitting in a different manager
sequence, and add_data_layer ids are fresh. -/
def safeOp (w : World) : WOp → Bool
  | WOp.attach mid lid => w.managers.all (fun p => p.1 == mid || !(p.2.contains lid))
  | WOp.addData _ lid => !((w.layers.map Prod.fst).contains lid)
  | WOp.removeLayer _ _ => true
  | WOp.layerRem _ => true

def safeOps (w : World) : List WOp → Bool
  | [] => true
  | op :: ops => safeOp w op && safeOps (stepW w op) ops

/-! Concrete tables and layers used by witnesses and counterexamples. -/

/-- The end-to-end table of the specification scenario: columns RA, Dec,
Vmag (original case), no units. -/
def tblRADecVmag : Table := ⟨[⟨"RA", none, []⟩, ⟨"Dec", none, []⟩, ⟨"Vmag", none, []⟩]⟩

/-- A table whose guessable columns are already lowercase. -/
def tblRaDec : Table := ⟨[⟨"ra", none, []⟩, ⟨"dec", none, []⟩]⟩

/-- A table with a single altitude-like column carrying the unit metre. -/
def tblAlt : Table := ⟨[⟨"v", some meter, ["1"]⟩]⟩

/-- C1: the claim says that constructing a layer over the table with
columns RA, Dec, Vmag and no overrides completes with lon_att = RA and
lat_att = Dec (original-case names). The code disagrees with itself
here: the exact-match branch of guess_lon_lat_columns returns the
lowercased stems ra and dec rather than the original-case column names
(the prefix branch does return original names), so __init__ assigns
lon_att = "ra" and the class observer then fails looking up column "ra"
in a table whose column is named "RA": construction raises KeyError and
never completes. -/
theorem C1_construction_on_RA_Dec_crashes :
    guess_lon_lat_columns tblRADecVmag.colnames = (some "ra", some "dec") ∧
    (initTableLayer (some tblRADecVmag) "Sky" "layer1" []).err = some "KeyError: ra" ∧
    (initTableLayer (some tblRADecVmag) "Sky" "layer1" []).layer.lon_att = "ra" := by
  decide

/-- C2: the claim says the exact-match rule returns the matching columns
with their original-case names. The code returns the lowercase stems in
that branch: on colnames RA, Dec it yields (ra, dec), not (RA, Dec). -/
theorem C2_exact_match_returns_stems :
    guess_lon_lat_columns ["RA", "Dec"] = (some "ra", some "dec") ∧
    guess_lon_lat_columns ["RA", "Dec"] ≠ (some "RA", some "Dec") := by
  decide

/-- C9: constructing with an overrides mapping containing a non-trait
key raises KeyError, but only after the table_layer_create message and
the three forced-default table_layer_set messages (size_scale, color,
opacity) have been sent to the parent. -/
theorem C9_bad_key_raises_after_messages (t : Table) (frame id : String)
    (kwargs : List (String × TValue))
    (hbad : kwargs.any (fun kv => !(trait_names.contains kv.1)) = true) :
    (initTableLayer (some t) frame id kwargs).err =
        some "KeyError: a key does not match any layer trait name" ∧
    (initTableLayer (some t) frame id kwargs).msgs =
      [Msg.create id (b64encode (asciiReplaceBytes (crlf (csvOfTable t)))) frame,
       Msg.set id "scaleFactor" (TValue.num 10),
       Msg.set id "color" (TValue.str "white"),
       Msg.set id "opacity" (TValue.num 1)] := by
  constructor <;>
  · simp only [initTableLayer, table_b64, hbad]
    rfl

/-- C9 witness at a concrete table and override mapping. -/
theorem C9_witness :
    (initTableLayer (some tblRaDec) "Sky" "w9" [("zzz", TValue.num 0)]).err =
      some "KeyError: a key does not match any layer trait name" :=
  (C9_bad_key_raises_after_messages tblRaDec "Sky" "w9" [("zzz", TValue.num 0)]
    (by decide)).1

/-- C10: the table parameter of update_data defaults to None and the new
table reference is stored before the update snapshot is built, so
calling update_data with no argument overwrites the stored table with
None and then fails while serializing - the previous table is lost, not
restored. -/
theorem C10_update_data_none_loses_table (l : TableLayer) :
    update_data_noarg l = update_data l none ∧
    update_data l none =
      ⟨{ l with table := none }, [], [], some "AttributeError: table is None"⟩ ∧
    (update_data l none).layer.table = none := by
  exact ⟨rfl, rfl, rfl⟩

lemma uEq_refl (a : AUnit) : uEq a a = true := by simp [uEq]

theorem C3_lon_unit_validation (l : TableLayer) (v : TValue) (u : AUnit)
    (hp : uUnitParse false v = some u) (hden : 0 < u.den) :
    (∀ k ∈ dictKeys VALID_LON_UNITS, uEq u k = true →
        (set_lon_unit l v).err = none ∧ (set_lon_unit l v).layer.lon_unit = some k) ∧
    ((∀ k ∈ dictKeys VALID_LON_UNITS, uEq u k = false) →
        (set_lon_unit l v).err = some lon_unit_error ∧ (set_lon_unit l v).layer = l) ∧
    lon_unit_error = "lon_unit should be one of deg/h/hourangle" := by
  refine ⟨?_, ?_, by decide⟩
  · intro k hk hke
    have hmem : k = deg ∨ k = hour ∨ k = hourangle := by
      simpa [dictKeys, VALID_LON_UNITS] using hk
    have hcheck : check_lon_unit v = Except.ok k := by
      have hpick : pick_unit_if_available u (dictKeys VALID_LON_UNITS) = k := by
        rcases hmem with rfl | rfl | rfl
        · simp [pick_unit_if_available, dictKeys, VALID_LON_UNITS, List.find?, hke]
        · have hd : uEq u deg = false := by
            cases hud : uEq u deg with
            | false => rfl
            | true =>
              exfalso
              have h1 : u.dim = Dim.angle := by
                simp [uEq, deg] at hud; exact hud.1
              have h2 : u.dim = Dim.time := by
                simp [uEq, hour] at hke; exact hke.1
              rw [h1] at h2; simp at h2
          simp [pick_unit_if_available, dictKeys, VALID_LON_UNITS, List.find?, hd, hke]
        · have hh : uEq u hour = false := by
            cases huh : uEq u hour with
            | false => rfl
            | true =>
              exfalso
              have h1 : u.dim = Dim.time := by
                simp [uEq, hour] at huh; exact huh.1
              have h2 : u.dim = Dim.angle := by
                simp [uEq, hourangle] at hke; exact hke.1
              rw [h1] at h2; simp at h2
          have hd : uEq u deg = false := by
            cases hud : uEq u deg with
            | false => rfl
            | true =>
              exfalso
              have h1 : u.num = u.den := by
                simp [uEq, deg] at hud; exact hud.2
              have h2 : u.num = 15 * u.den := by
                simp [uEq, hourangle] at hke; exact hke.2
              omega
          simp [pick_unit_if_available, dictKeys, VALID_LON_UNITS, List.find?, hd, hh, hke]
      have hhk : dictHasKey VALID_LON_UNITS k = true := by
        rcases hmem with rfl | rfl | rfl <;> decide
      simp [check_lon_unit, hp, hpick, hhk]
    by_cases hlu : l.lon_unit = some k
    · simp [set_lon_unit, hcheck, hlu, okOut]
    · simp only [set_lon_unit, hcheck, if_neg hlu]
      rcases hmem with rfl | rfl | rfl <;> exact ⟨rfl, rfl⟩
  · intro hall
    have h1 := hall deg (by decide)
    have h2 := hall hour (by decide)
    have h3 := hall hourangle (by decide)
    have hpick : pick_unit_if_available u (dictKeys VALID_LON_UNITS) = u := by
      simp [pick_unit_if_available, dictKeys, VALID_LON_UNITS, List.find?, h1, h2, h3]
    have hhk : dictHasKey VALID_LON_UNITS u = false := by
      simp [dictHasKey, dictKeys, VALID_LON_UNITS, h1, h2, h3]
    have hcheck : check_lon_unit v = Except.error lon_unit_error := by
      simp [check_lon_unit, hp, hpick, hhk]
    simp only [set_lon_unit, hcheck]
    constructor <;> first | rfl | trivial

theorem C3_witness :
    (set_lon_unit (freshLayer none "Sky" "w3") (TValue.str "hourangle")).err = none ∧
    (set_lon_unit (freshLayer none "Sky" "w3") (TValue.str "hourangle")).layer.lon_unit =
      some hourangle :=
  (C3_lon_unit_validation (freshLayer none "Sky" "w3") (TValue.str "hourangle") hourangle
    (by decide) (by decide)).1 hourangle (by decide) (by decide)

/-- A successful _check_lon_unit always returns one of the dict keys. -/
lemma check_lon_ok_mem {v : TValue} {u : AUnit} (h : check_lon_unit v = Except.ok u) :
    u ∈ dictKeys VALID_LON_UNITS := by
  unfold check_lon_unit at h
  split at h
  · cases h
  · rename_i u0 hp
    split at h
    · rename_i hk
      injection h with h
      subst h
      unfold pick_unit_if_available at hk ⊢
      cases hf : (dictKeys VALID_LON_UNITS).find? (fun k => uEq u0 k) with
      | some k => simp [hf]; exact List.mem_of_find?_eq_some hf
      | none =>
        exfalso
        rw [hf] at hk
        simp [dictHasKey, List.any_eq_true] at hk
        obtain ⟨k, hkmem, hke⟩ := hk
        have := List.find?_eq_none.mp hf k hkmem
        simp at this
        simp [this] at hke
    · cases h

/-- A successful _check_alt_unit always returns one of the dict keys. -/
lemma check_alt_ok_mem {v : TValue} {u : AUnit} (h : check_alt_unit v = Except.ok u) :
    u ∈ dictKeys VALID_ALT_UNITS := by
  unfold check_alt_unit at h
  split at h
  · cases h
  · rename_i u0 hp
    split at h
    · rename_i hk
      injection h with h
      subst h
      unfold pick_unit_if_available at hk ⊢
      cases hf : (dictKeys VALID_ALT_UNITS).find? (fun k => uEq u0 k) with
      | some k => simp [hf]; exact List.mem_of_find?_eq_some hf
      | none =>
        exfalso
        rw [hf] at hk
        simp [dictHasKey, List.any_eq_true] at hk
        obtain ⟨k, hkmem, hke⟩ := hk
        have := List.find?_eq_none.mp hf k hkmem
        simp at this
        simp [this] at hke
    · cases h

/-- Re-validating a canonical longitude unit succeeds and has a token. -/
lemma lon_key_eval {u : AUnit} (hu : u ∈ dictKeys VALID_LON_UNITS) :
    check_lon_unit (TValue.unit u) = Except.ok u ∧
    ∃ tok, dictGet VALID_LON_UNITS u = some tok := by
  have h3 : u = deg ∨ u = hour ∨ u = hourangle := by
    simpa [dictKeys, VALID_LON_UNITS] using hu
  rcases h3 with rfl | rfl | rfl
  · exact ⟨rfl, "degrees", rfl⟩
  · exact ⟨rfl, "hours", rfl⟩
  · exact ⟨rfl, "hours", rfl⟩

/-- Re-validating a canonical altitude unit succeeds and has a token. -/
lemma alt_key_eval {u : AUnit} (hu : u ∈ dictKeys VALID_ALT_UNITS) :
    check_alt_unit (TValue.unit u) = Except.ok u ∧
    ∃ tok, dictGet VALID_ALT_UNITS u = some tok := by
  have h9 : u = meter ∨ u = foot ∨ u = inch ∨ u = mile ∨ u = km ∨ u = au ∨
      u = lyr ∨ u = pc ∨ u = mpc := by
    simpa [dictKeys, VALID_ALT_UNITS] using hu
  rcases h9 with rfl | rfl | rfl | rfl | rfl | rfl | rfl | rfl | rfl
  · exact ⟨rfl, "meters", rfl⟩
  · exact ⟨rfl, "feet", rfl⟩
  · exact ⟨rfl, "inches", rfl⟩
  · exact ⟨rfl, "miles", rfl⟩
  · exact ⟨rfl, "kilometers", rfl⟩
  · exact ⟨rfl, "astronomicalUnits", rfl⟩
  · exact ⟨rfl, "lightYears", rfl⟩
  · exact ⟨rfl, "parsecs", rfl⟩
  · exact ⟨rfl, "megaParsecs", rfl⟩

/-- C5: every table_layer_set message produced by an assignment to
lon_unit or alt_unit carries the canonical display token of the stored
unit (never the raw assigned value); assigning the string hourangle to
lon_unit on a fresh layer sends exactly the token hours; traits without
a wwt tag never produce a message. -/
theorem C5_set_unit_messages_carry_tokens :
    (∀ (l : TableLayer) (v : TValue) (m : Msg), m ∈ (set_lon_unit l v).msgs →
        ∃ u tok, (set_lon_unit l v).layer.lon_unit = some u ∧
          dictGet VALID_LON_UNITS u = some tok ∧
          m = Msg.set l.id "raUnits" (TValue.str tok)) ∧
    (∀ (l : TableLayer) (v : TValue) (m : Msg), m ∈ (set_alt_unit l v).msgs →
        ∃ u tok, (set_alt_unit l v).layer.alt_unit = some u ∧
          dictGet VALID_ALT_UNITS u = some tok ∧
          m = Msg.set l.id "altUnit" (TValue.str tok)) ∧
    ((set_lon_unit (freshLayer none "Sky" "c5") (TValue.str "hourangle")).msgs =
        [Msg.set "c5" "raUnits" (TValue.str "hours")]) ∧
    (∀ (l : TableLayer) (name : String) (v : TValue), wwtName name = none →
        on_trait_change l name v = ([], none)) := by
  refine ⟨?_, ?_, by decide, ?_⟩
  · intro l v m hm
    cases hc : check_lon_unit v with
    | error e => simp [set_lon_unit, hc] at hm
    | ok u =>
      simp only [set_lon_unit, hc] at hm ⊢
      by_cases hlu : l.lon_unit = some u
      · simp [if_pos hlu, okOut] at hm
      · simp only [if_neg hlu] at hm ⊢
        obtain ⟨hchk2, tok, htok⟩ := lon_key_eval (check_lon_ok_mem hc)
        have hemit : emit { l with lon_unit := some u } "lon_unit" (TValue.unit u) =
            ⟨{ l with lon_unit := some u },
             [Msg.set l.id "raUnits" (TValue.str tok)], [], none⟩ := by
          simp [emit, on_trait_change, wwtName, hchk2, htok]
        rw [hemit] at hm ⊢
        simp at hm
        subst hm
        exact ⟨u, tok, rfl, htok, rfl⟩
  · intro l v m hm
    cases hc : check_alt_unit v with
    | error e => simp [set_alt_unit, hc] at hm
    | ok u =>
      simp only [set_alt_unit, hc] at hm ⊢
      by_cases hlu : l.alt_unit = some u
      · simp [if_pos hlu, okOut] at hm
      · simp only [if_neg hlu] at hm ⊢
        obtain ⟨hchk2, tok, htok⟩ := alt_key_eval (check_alt_ok_mem hc)
        have hemit : emit { l with alt_unit := some u } "alt_unit" (TValue.unit u) =
            ⟨{ l with alt_unit := some u },
             [Msg.set l.id "altUnit" (TValue.str tok)], [], none⟩ := by
          simp [emit, on_trait_change, wwtName, hchk2, htok]
        rw [hemit] at hm ⊢
        simp at hm
        subst hm
        exact ⟨u, tok, rfl, htok, rfl⟩
  · intro l name v h
    simp [on_trait_change, h]

/-- C5 witness: the hourangle assignment instantiates the lon_unit part,
and a non-trait name instantiates the no-tag part. -/
theorem C5_witness :
    (∃ u tok,
      (set_lon_unit (freshLayer none "Sky" "c5") (TValue.str "hourangle")).layer.lon_unit =
        some u ∧
      dictGet VALID_LON_UNITS u = some tok ∧
      Msg.set "c5" "raUnits" (TValue.str "hours") =
        Msg.set (freshLayer none "Sky" "c5").id "raUnits" (TValue.str tok)) ∧
    on_trait_change (freshLayer none "Sky" "c5") "frame" (TValue.str "x") = ([], none) :=
  ⟨C5_set_unit_messages_carry_tokens.1 (freshLayer none "Sky" "c5") (TValue.str "hourangle")
      (Msg.set "c5" "raUnits" (TValue.str "hours")) (by decide),
   C5_set_unit_messages_carry_tokens.2.2.2 (freshLayer none "Sky" "c5") "frame"
      (TValue.str "x") rfl⟩

/-- A resolving pick against the altitude dict lands on a dict key. -/
lemma alt_pick_mem {cu : AUnit}
    (h : dictHasKey VALID_ALT_UNITS (pick_unit_if_available cu (dictKeys VALID_ALT_UNITS)) = true) :
    pick_unit_if_available cu (dictKeys VALID_ALT_UNITS) ∈ dictKeys VALID_ALT_UNITS := by
  unfold pick_unit_if_available at h ⊢
  cases hf : (dictKeys VALID_ALT_UNITS).find? (fun k => uEq cu k) with
  | some k => simp [hf]; exact List.mem_of_find?_eq_some hf
  | none =>
    exfalso
    rw [hf] at h
    simp [dictHasKey, List.any_eq_true] at h
    obtain ⟨k, hkm, hke⟩ := h
    have := List.find?_eq_none.mp hf k hkm
    simp at this
    simp [this] at hke

/-- A string has length zero exactly when it is empty. -/
lemma strLength_eq_zero_iff (s : String) : s.length = 0 ↔ s = "" := by
  constructor
  · intro h
    cases s with
    | mk data =>
      cases data with
      | nil => rfl
      | cons c cs => simp [String.length] at h
  · intro h
    subst h
    rfl

/-- The layer used in the C4 counterexample: its alt_att already names
the metre column v, but alt_unit was later set to kilometres by hand (a
state reachable by assigning alt_att then alt_unit). -/
def c4Layer : TableLayer :=
  { freshLayer (some tblAlt) "Sky" "c4" with alt_att := "v", alt_unit := some km }

/-- C4 counterexample: re-assigning alt_att the value it already holds
is a traitlets no-change assignment, so the observer never runs - the
column unit (metre) resolves against the altitude family, yet alt_unit
keeps kilometres, contradicting the claim read over every assignment. -/
theorem C4_counterexample :
    dictHasKey VALID_ALT_UNITS
        (pick_unit_if_available meter (dictKeys VALID_ALT_UNITS)) = true ∧
    tableCol c4Layer.table c4Layer.alt_att = some ⟨"v", some meter, ["1"]⟩ ∧
    set_alt_att c4Layer "v" = okOut c4Layer ∧
    (set_alt_att c4Layer "v").layer.alt_unit = some km ∧
    some km ≠ (some meter : Option AUnit) := by
  decide

/-- C4 amended: for every assignment to alt_att that changes its value -
if the new value is the empty string nothing further happens (alt_unit
unchanged, no warning); otherwise when the named column exists, a
resolving column unit sets alt_unit to the canonical family member, a
non-resolving unit leaves alt_unit unchanged and emits a warning without
raising, and a missing unit leaves alt_unit unchanged with no warning. -/
theorem C4_amended (l : TableLayer) (s : String) (hch : s ≠ l.alt_att) :
    (s = "" →
      (set_alt_att l s).layer.alt_unit = l.alt_unit ∧
      (set_alt_att l s).warns = [] ∧ (set_alt_att l s).err = none) ∧
    (∀ col cu, tableCol l.table s = some col → col.unit = some cu → s ≠ "" →
      (dictHasKey VALID_ALT_UNITS
          (pick_unit_if_available cu (dictKeys VALID_ALT_UNITS)) = true →
        (set_alt_att l s).layer.alt_unit =
          some (pick_unit_if_available cu (dictKeys VALID_ALT_UNITS)) ∧
        (set_alt_att l s).warns = [] ∧ (set_alt_att l s).err = none) ∧
      (dictHasKey VALID_ALT_UNITS
          (pick_unit_if_available cu (dictKeys VALID_ALT_UNITS)) = false →
        (set_alt_att l s).layer.alt_unit = l.alt_unit ∧
        (set_alt_att l s).warns ≠ [] ∧ (set_alt_att l s).err = none)) ∧
    (∀ col, tableCol l.table s = some col → col.unit = none → s ≠ "" →
      (set_alt_att l s).layer.alt_unit = l.alt_unit ∧
      (set_alt_att l s).warns = [] ∧ (set_alt_att l s).err = none) := by
  refine ⟨?_, ?_, ?_⟩
  · intro hs
    subst hs
    simp [set_alt_att, hch, on_alt_att_change, seqOut, emit, on_trait_change,
          wwtName, okOut]
  · intro col cu hcol hcu hs
    have hlen : ({ l with alt_att := s } : TableLayer).alt_att.length = 0 ↔ False := by
      simp [strLength_eq_zero_iff, hs]
    constructor
    · intro hk
      obtain ⟨hchk, tok, htok⟩ := alt_key_eval (alt_pick_mem hk)
      have hset : ∀ l2 : TableLayer,
          (set_alt_unit l2 (TValue.unit (pick_unit_if_available cu (dictKeys VALID_ALT_UNITS)))).layer.alt_unit =
            some (pick_unit_if_available cu (dictKeys VALID_ALT_UNITS)) ∧
          (set_alt_unit l2 (TValue.unit (pick_unit_if_available cu (dictKeys VALID_ALT_UNITS)))).warns = [] ∧
          (set_alt_unit l2 (TValue.unit (pick_unit_if_available cu (dictKeys VALID_ALT_UNITS)))).err = none := by
        intro l2
        by_cases h2 : l2.alt_unit = some (pick_unit_if_available cu (dictKeys VALID_ALT_UNITS))
        · simp [set_alt_unit, hchk, h2, okOut]
        · simp [set_alt_unit, hchk, h2, emit, on_trait_change, wwtName, htok]
      obtain ⟨ha, hw, he⟩ := hset { l with alt_att := s }
      simp only [set_alt_att, if_neg hch, on_alt_att_change, hlen, if_false, seqOut,
                 hcol, hcu, pick_unit_opt, hk, if_true, he]
      simp [emit, on_trait_change, wwtName, ha, hw, he]
    · intro hk
      simp only [set_alt_att, if_neg hch, on_alt_att_change, hlen, if_false, seqOut,
                 hcol, hcu, pick_unit_opt, hk]
      simp [emit, on_trait_change, wwtName]
  · intro col hcol hcu hs
    have hlen : ({ l with alt_att := s } : TableLayer).alt_att.length = 0 ↔ False := by
      simp [strLength_eq_zero_iff, hs]
    simp only [set_alt_att, if_neg hch, on_alt_att_change, hlen, if_false, seqOut,
               hcol, hcu, pick_unit_opt, okOut]
    simp [emit, on_trait_change, wwtName]

/-- C4 witness: on a fresh layer over the metre-column table, assigning
alt_att = v (a real change) auto-sets alt_unit to metres with no warning
and no error. -/
theorem C4_witness :
    (set_alt_att (freshLayer (some tblAlt) "Sky" "w4") "v").layer.alt_unit =
      some (pick_unit_if_available meter (dictKeys VALID_ALT_UNITS)) ∧
    (set_alt_att (freshLayer (some tblAlt) "Sky" "w4") "v").warns = [] ∧
    (set_alt_att (freshLayer (some tblAlt) "Sky" "w4") "v").err = none :=
  ((C4_amended (freshLayer (some tblAlt) "Sky" "w4") "v" (by decide)).2.1
    ⟨"v", some meter, ["1"]⟩ meter (by decide) (by decide) (by decide)).1 (by decide)

/-- Updating the entry under a present key makes lookup return the new
value. -/
lemma afind_upd_self {a : Type} (ps : List (String × a)) (k : String) (v : a)
    (h : (ps.find? (fun p => p.1 == k)).isSome = true) :
    (ps.map (fun p => if p.1 == k then (p.1, v) else p)).find? (fun p => p.1 == k)
      = some (k, v) := by
  induction ps with
  | nil => simp at h
  | cons p ps ih =>
    by_cases hpk : p.1 = k
    · subst hpk
      simp [List.find?]
    · have hb : (p.1 == k) = false := by simpa using hpk
      simp only [List.map_cons, List.find?, hb, Bool.false_eq_true, if_false] at h ⊢
      exact ih h

lemma lookupL_updL_self (w : World) (lid : String) (cfg cfg2 : LayerCore)
    (h : lookupL w lid = some cfg) :
    lookupL (updL w lid cfg2) lid = some cfg2 := by
  unfold lookupL at h
  have hs : (w.layers.find? (fun p => p.1 == lid)).isSome = true := by
    cases hf : w.layers.find? (fun p => p.1 == lid) with
    | none => rw [hf] at h; simp at h
    | some q => rfl
  have hrfl : lookupL (updL w lid cfg2) lid =
      Option.map Prod.snd
        ((w.layers.map (fun p => if p.1 == lid then (p.1, cfg2) else p)).find?
          (fun p => p.1 == lid)) := rfl
  rw [hrfl, afind_upd_self w.layers lid cfg2 hs]
  rfl

lemma lookupL_updM (w : World) (mid : String) (lst : List String) (lid : String) :
    lookupL (updM w mid lst) lid = lookupL w lid := rfl

/-- The successor-step equation of TableLayer.remove. -/
lemma layer_remove_f_succ (fuel : Nat) (w : World) (lid : String) :
    layer_remove_f (fuel + 1) w lid =
      (match lookupL w lid with
      | none => (w, [], some "AttributeError: no such layer")
      | some cfg =>
        if cfg.removed then (w, [], none)
        else
          match cfg.manager with
          | none => (updL w lid ⟨true, cfg.manager⟩, [Msg.remove lid], none)
          | some mid =>
            match manager_remove_layer_f fuel (updL w lid ⟨true, cfg.manager⟩) mid lid with
            | (w2, ms2, e2) => (w2, Msg.remove lid :: ms2, e2)) := rfl

/-- The successor-step equation of LayerManager.remove_layer. -/
lemma manager_remove_layer_f_succ (fuel : Nat) (w : World) (mid lid : String) :
    manager_remove_layer_f (fuel + 1) w mid lid =
      (match lookupM w mid with
      | none => (w, [], some "AttributeError: no such manager")
      | some lst =>
        if lst.contains lid then
          match layer_remove_f fuel w lid with
          | (w1, ms, some e) => (w1, ms, some e)
          | (w1, ms, none) =>
            match lookupM w1 mid with
            | none => (w1, ms, some "AttributeError: no such manager")
            | some lst1 =>
              if lst1.contains lid then (updM w1 mid (lst1.erase lid), ms, none)
              else (w1, ms, none)
        else (w, [], some "ValueError: layer not in layer manager")) := rfl

/-- remove_layer called while the layer is already flagged removed (the
re-entrant call remove makes) sends no message and leaves the layer
entry untouched. -/
lemma mrl_after_removed (fuel : Nat) (w : World) (mid lid : String) (cfg : LayerCore)
    (hL : lookupL w lid = some cfg) (hr : cfg.removed = true) :
    ∃ w2 e2, manager_remove_layer_f (fuel + 2) w mid lid = (w2, [], e2) ∧
      lookupL w2 lid = some cfg := by
  cases hM : lookupM w mid with
  | none =>
    refine ⟨w, some "AttributeError: no such manager", ?_, hL⟩
    rw [show fuel + 2 = (fuel + 1) + 1 from rfl, manager_remove_layer_f_succ]
    simp only [hM]
  | some lst =>
    cases hc : lst.contains lid with
    | true =>
      refine ⟨updM w mid (lst.erase lid), none, ?_, by rw [lookupL_updM]; exact hL⟩
      rw [show fuel + 2 = (fuel + 1) + 1 from rfl, manager_remove_layer_f_succ]
      simp only [hM, hc, if_true, layer_remove_f_succ, hL, hr]
    | false =>
      refine ⟨w, some "ValueError: layer not in layer manager", ?_, hL⟩
      rw [show fuel + 2 = (fuel + 1) + 1 from rfl, manager_remove_layer_f_succ]
      simp only [hM, hc, Bool.false_eq_true, if_false]

/-- C7: remove is idempotent - for a layer not yet removed, the first
remove() sends exactly one table_layer_remove message, and a second
remove() is a no-op: it changes nothing and sends nothing. -/
theorem C7_remove_idempotent (w : World) (lid : String) (cfg : LayerCore)
    (h1 : lookupL w lid = some cfg) (h2 : cfg.removed = false) :
    (layer_remove w lid).2.1 = [Msg.remove lid] ∧
    layer_remove (layer_remove w lid).1 lid = ((layer_remove w lid).1, [], none) := by
  have hw1 : lookupL (updL w lid ⟨true, cfg.manager⟩) lid = some ⟨true, cfg.manager⟩ :=
    lookupL_updL_self w lid cfg ⟨true, cfg.manager⟩ h1
  have hfirst : ∃ W1 E, layer_remove w lid = (W1, [Msg.remove lid], E) ∧
      lookupL W1 lid = some ⟨true, cfg.manager⟩ := by
    unfold layer_remove
    rw [show (9 : Nat) = 8 + 1 from rfl, layer_remove_f_succ]
    cases hm : cfg.manager with
    | none =>
      rw [hm] at hw1
      refine ⟨updL w lid ⟨true, none⟩, none, ?_, hw1⟩
      simp only [h1, h2, Bool.false_eq_true, if_false, hm]
    | some mid =>
      rw [hm] at hw1
      obtain ⟨w2, e2, hm2, hL2⟩ :=
        mrl_after_removed 6 (updL w lid ⟨true, some mid⟩) mid lid ⟨true, some mid⟩ hw1 rfl
      have hm2eight : manager_remove_layer_f 8 (updL w lid ⟨true, some mid⟩) mid lid
          = (w2, [], e2) := hm2
      refine ⟨w2, e2, ?_, hL2⟩
      simp only [h1, h2, Bool.false_eq_true, if_false, hm, hm2eight]
  obtain ⟨W1, E, hfst, hlook⟩ := hfirst
  rw [hfst]
  refine ⟨rfl, ?_⟩
  unfold layer_remove
  rw [show (9 : Nat) = 8 + 1 from rfl, layer_remove_f_succ]
  simp only [hlook, if_true]

/-- C7 witness at a concrete one-manager, one-layer world. -/
theorem C7_witness :
    (layer_remove ⟨[("m", ["l"])], [("l", ⟨false, some "m"⟩)]⟩ "l").2.1 =
      [Msg.remove "l"] :=
  (C7_remove_idempotent ⟨[("m", ["l"])], [("l", ⟨false, some "m"⟩)]⟩ "l"
    ⟨false, some "m"⟩ (by decide) rfl).1

/-- Is this message a table_layer_create message? -/
def isCreateMsg : Msg → Bool
  | Msg.create _ _ _ => true
  | _ => false

/-- Is this message a table_layer_set message for the given setting? -/
def isSetFor (s : String) : Msg → Bool
  | Msg.set _ s2 _ => s2 == s
  | _ => false

/-- A message that is neither a create message nor a set message for one
of the three forced-default settings. -/
def benignMsg (m : Msg) : Bool :=
  !(isCreateMsg m) && !(isSetFor "scaleFactor" m) &&
  !(isSetFor "color" m) && !(isSetFor "opacity" m)

def benignMsgs (ms : List Msg) : Prop := ∀ m ∈ ms, benignMsg m = true

lemma benignMsgs_nil : benignMsgs [] := fun m hm => absurd hm (List.not_mem_nil m)

lemma benignMsgs_append {as bs : List Msg} (ha : benignMsgs as) (hb : benignMsgs bs) :
    benignMsgs (as ++ bs) := by
  intro m hm
  rcases List.mem_append.mp hm with h | h
  · exact ha m h
  · exact hb m h

/-- The wwt tag of a trait that is not one of the three forced-default
traits is not one of their tags. -/
lemma wwt_setting_ne (name : String) (h1 : name ≠ "size_scale") (h2 : name ≠ "color")
    (h3 : name ≠ "opacity") (w : String) (hw : wwtName name = some w) :
    w ≠ "scaleFactor" ∧ w ≠ "color" ∧ w ≠ "opacity" := by
  unfold wwtName at hw
  split at hw <;>
    first
      | (injection hw with hw; subst hw; decide)
      | simp_all

/-- The instance observer emits either nothing or a single set message
for the wwt tag of the changed trait. -/
lemma on_trait_change_shape (l : TableLayer) (name : String) (v : TValue) :
    (on_trait_change l name v).1 = [] ∨
    ∃ w val, wwtName name = some w ∧
      (on_trait_change l name v).1 = [Msg.set l.id w val] := by
  unfold on_trait_change
  cases hw : wwtName name with
  | none => exact Or.inl rfl
  | some w =>
    dsimp only
    by_cases ha : name = "alt_unit"
    · rw [if_pos ha]
      cases hc : check_alt_unit v with
      | error e => exact Or.inl rfl
      | ok u =>
        dsimp only
        cases hg : dictGet VALID_ALT_UNITS u with
        | none => exact Or.inl rfl
        | some tok => exact Or.inr ⟨w, TValue.str tok, rfl, rfl⟩
    · rw [if_neg ha]
      by_cases hl : name = "lon_unit"
      · rw [if_pos hl]
        cases hc : check_lon_unit v with
        | error e => exact Or.inl rfl
        | ok u =>
          dsimp only
          cases hg : dictGet VALID_LON_UNITS u with
          | none => exact Or.inl rfl
          | some tok => exact Or.inr ⟨w, TValue.str tok, rfl, rfl⟩
      · rw [if_neg hl]
        exact Or.inr ⟨w, v, rfl, rfl⟩

lemma benign_on_trait_change (l : TableLayer) (name : String) (v : TValue)
    (h1 : name ≠ "size_scale") (h2 : name ≠ "color") (h3 : name ≠ "opacity") :
    ∀ m ∈ (on_trait_change l name v).1, benignMsg m = true := by
  intro m hm
  rcases on_trait_change_shape l name v with h | ⟨w, val, hw, h⟩
  · rw [h] at hm; simp at hm
  · rw [h] at hm
    rw [List.mem_singleton] at hm
    subst hm
    obtain ⟨g1, g2, g3⟩ := wwt_setting_ne name h1 h2 h3 w hw
    simp [benignMsg, isCreateMsg, isSetFor, g1, g2, g3]

lemma benign_emit (l : TableLayer) (name : String) (v : TValue)
    (h1 : name ≠ "size_scale") (h2 : name ≠ "color") (h3 : name ≠ "opacity") :
    benignMsgs (emit l name v).msgs :=
  fun m hm => benign_on_trait_change l name v h1 h2 h3 m hm

lemma benign_okOut (l : TableLayer) : benignMsgs (okOut l).msgs := benignMsgs_nil

lemma benign_seqOut {o : Out} {f : TableLayer → Out} (ho : benignMsgs o.msgs)
    (hf : ∀ l2, benignMsgs (f l2).msgs) : benignMsgs (seqOut o f).msgs := by
  unfold seqOut
  cases he : o.err with
  | some e => exact ho
  | none => exact benignMsgs_append ho (hf o.layer)

lemma benign_set_lon_unit (l : TableLayer) (v : TValue) :
    benignMsgs (set_lon_unit l v).msgs := by
  unfold set_lon_unit
  cases hc : check_lon_unit v with
  | error e => exact benignMsgs_nil
  | ok u =>
    dsimp only
    by_cases h2 : l.lon_unit = some u
    · rw [if_pos h2]; exact benign_okOut _
    · rw [if_neg h2]
      exact benign_emit _ _ _ (by decide) (by decide) (by decide)

lemma benign_set_alt_unit (l : TableLayer) (v : TValue) :
    benignMsgs (set_alt_unit l v).msgs := by
  unfold set_alt_unit
  cases hc : check_alt_unit v with
  | error e => exact benignMsgs_nil
  | ok u =>
    dsimp only
    by_cases h2 : l.alt_unit = some u
    · rw [if_pos h2]; exact benign_okOut _
    · rw [if_neg h2]
      exact benign_emit _ _ _ (by decide) (by decide) (by decide)

lemma benign_on_lon_att_change (l : TableLayer) :
    benignMsgs (on_lon_att_change l).msgs := by
  unfold on_lon_att_change
  by_cases h0 : l.lon_att.length = 0
  · rw [if_pos h0]; exact benign_okOut _
  · rw [if_neg h0]
    cases hcol : tableCol l.table l.lon_att with
    | none => exact benignMsgs_nil
    | some column =>
      dsimp only
      cases hpu : pick_unit_opt column.unit (dictKeys VALID_LON_UNITS) with
      | none => exact benign_okOut _
      | some unit1 =>
        dsimp only
        by_cases hk : dictHasKey VALID_LON_UNITS unit1 = true
        · rw [if_pos hk]; exact benign_set_lon_unit _ _
        · rw [if_neg hk]; exact benignMsgs_nil

lemma benign_on_alt_att_change (l : TableLayer) :
    benignMsgs (on_alt_att_change l).msgs := by
  unfold on_alt_att_change
  by_cases h0 : l.alt_att.length = 0
  · rw [if_pos h0]; exact benign_okOut _
  · rw [if_neg h0]
    cases hcol : tableCol l.table l.alt_att with
    | none => exact benignMsgs_nil
    | some column =>
      dsimp only
      cases hpu : pick_unit_opt column.unit (dictKeys VALID_ALT_UNITS) with
      | none => exact benign_okOut _
      | some unit1 =>
        dsimp only
        by_cases hk : dictHasKey VALID_ALT_UNITS unit1 = true
        · rw [if_pos hk]; exact benign_set_alt_unit _ _
        · rw [if_neg hk]; exact benignMsgs_nil

lemma benign_set_lon_att (l : TableLayer) (s : String) :
    benignMsgs (set_lon_att l s).msgs := by
  unfold set_lon_att
  by_cases h : s = l.lon_att
  · rw [if_pos h]; exact benign_okOut _
  · rw [if_neg h]
    exact benign_seqOut (benign_on_lon_att_change _)
      (fun l2 => benign_emit _ _ _ (by decide) (by decide) (by decide))

lemma benign_set_alt_att (l : TableLayer) (s : String) :
    benignMsgs (set_alt_att l s).msgs := by
  unfold set_alt_att
  by_cases h : s = l.alt_att
  · rw [if_pos h]; exact benign_okOut _
  · rw [if_neg h]
    exact benign_seqOut (benign_on_alt_att_change _)
      (fun l2 => benign_emit _ _ _ (by decide) (by decide) (by decide))

lemma benign_set_lat_att (l : TableLayer) (s : String) :
    benignMsgs (set_lat_att l s).msgs := by
  unfold set_lat_att
  by_cases h : s = l.lat_att
  · rw [if_pos h]; exact benign_okOut _
  · rw [if_neg h]; exact benign_emit _ _ _ (by decide) (by decide) (by decide)

lemma benign_set_alt_type (l : TableLayer) (s : String) :
    benignMsgs (set_alt_type l s).msgs := by
  unfold set_alt_type
  by_cases h1 : VALID_ALT_TYPES.contains s = true
  · rw [if_pos h1]
    by_cases h2 : s = l.alt_type
    · rw [if_pos h2]; exact benign_okOut _
    · rw [if_neg h2]; exact benign_emit _ _ _ (by decide) (by decide) (by decide)
  · rw [if_neg h1]; exact benignMsgs_nil

lemma benign_set_cmap_att (l : TableLayer) (s : String) :
    benignMsgs (set_cmap_att l s).msgs := by
  unfold set_cmap_att
  by_cases h : s = l.cmap_att
  · rw [if_pos h]; exact benign_okOut _
  · rw [if_neg h]; exact benign_emit _ _ _ (by decide) (by decide) (by decide)

lemma benign_set_size_att (l : TableLayer) (s : String) :
    benignMsgs (set_size_att l s).msgs := by
  unfold set_size_att
  by_cases h : s = l.size_att
  · rw [if_pos h]; exact benign_okOut _
  · rw [if_neg h]; exact benign_emit _ _ _ (by decide) (by decide) (by decide)

/-- Applying one override whose key is not among the three forced
defaults produces only benign messages. -/
lemma benign_setTrait (l : TableLayer) (k : String) (v : TValue)
    (h1 : k ≠ "size_scale") (h2 : k ≠ "color") (h3 : k ≠ "opacity") :
    benignMsgs (setTrait l k v).msgs := by
  unfold setTrait
  repeat' split
  all_goals
    first
      | exact benignMsgs_nil
      | exact benign_set_lon_att _ _
      | exact benign_set_lat_att _ _
      | exact benign_set_alt_att _ _
      | exact benign_set_alt_type _ _
      | exact benign_set_cmap_att _ _
      | exact benign_set_size_att _ _
      | exact benign_set_lon_unit _ _
      | exact benign_set_alt_unit _ _

lemma benign_applyKwargs (l : TableLayer) (kwargs : List (String × TValue))
    (hk : ∀ kv ∈ kwargs, kv.1 ≠ "size_scale" ∧ kv.1 ≠ "color" ∧ kv.1 ≠ "opacity") :
    benignMsgs (applyKwargs l kwargs).msgs := by
  induction kwargs generalizing l with
  | nil => exact benignMsgs_nil
  | cons kv rest ih =>
    obtain ⟨g1, g2, g3⟩ := hk kv (List.mem_cons_self kv rest)
    exact benign_seqOut (benign_setTrait l kv.1 kv.2 g1 g2 g3)
      (fun l2 => ih l2 (fun kv2 h2 => hk kv2 (List.mem_cons_of_mem kv h2)))

lemma countP_eq_zero_of_benign {p : Msg → Bool}
    (hp : ∀ m, benignMsg m = true → p m = false)
    {ms : List Msg} (h : benignMsgs ms) : ms.countP p = 0 := by
  rw [List.countP_eq_zero]
  intro m hm
  simp [hp m (h m hm)]

/-- seqOut appends only messages from the second operation; when every
outcome of the second operation is benign, the appended part is. -/
lemma seqOut_msgs_benign (o : Out) (f : TableLayer → Out)
    (hf : ∀ l2, benignMsgs (f l2).msgs) :
    ∃ extra, (∀ m ∈ extra, benignMsg m = true) ∧ (seqOut o f).msgs = o.msgs ++ extra := by
  unfold seqOut
  cases he : o.err with
  | some e => exact ⟨[], fun m hm => absurd hm (List.not_mem_nil m), (List.append_nil o.msgs).symm⟩
  | none => exact ⟨(f o.layer).msgs, hf o.layer, rfl⟩

/-- Three benign continuations after an operation leave its messages as
a prefix, followed only by benign messages. -/
lemma chain_decomp (o : Out) (f4 f5 f6 : TableLayer → Out)
    (hf4 : ∀ l2, benignMsgs (f4 l2).msgs)
    (hf5 : ∀ l2, benignMsgs (f5 l2).msgs)
    (hf6 : ∀ l2, benignMsgs (f6 l2).msgs) :
    ∃ rest, (∀ m ∈ rest, benignMsg m = true) ∧
      (seqOut (seqOut (seqOut o f4) f5) f6).msgs = o.msgs ++ rest := by
  obtain ⟨e4, he4, h4⟩ := seqOut_msgs_benign o f4 hf4
  obtain ⟨e5, he5, h5⟩ := seqOut_msgs_benign (seqOut o f4) f5 hf5
  obtain ⟨e6, he6, h6⟩ := seqOut_msgs_benign (seqOut (seqOut o f4) f5) f6 hf6
  refine ⟨e4 ++ (e5 ++ e6), ?_, ?_⟩
  · intro m hm
    rcases List.mem_append.mp hm with hm2 | hm2
    · exact he4 m hm2
    · rcases List.mem_append.mp hm2 with hm3 | hm3
      · exact he5 m hm3
      · exact he6 m hm3
  · rw [h6, h5, h4, List.append_assoc, List.append_assoc]

/-- The messages of every construction over a real table, whether it
completes or raises later (in override application or column
defaulting): the create message and the three forced-default set
messages carrying 10, white and 1 come first, and every later message
is benign (neither a create nor a set for the three forced settings). -/
lemma init_msgs_decomp (t : Table) (frame id : String)
    (kwargs : List (String × TValue))
    (hk : ∀ kv ∈ kwargs, kv.1 ≠ "size_scale" ∧ kv.1 ≠ "color" ∧ kv.1 ≠ "opacity") :
    ∃ rest, (∀ m ∈ rest, benignMsg m = true) ∧
      (initTableLayer (some t) frame id kwargs).msgs =
        [Msg.create id (b64encode (asciiReplaceBytes (crlf (csvOfTable t)))) frame,
         Msg.set id "scaleFactor" (TValue.num 10),
         Msg.set id "color" (TValue.str "white"),
         Msg.set id "opacity" (TValue.num 1)] ++ rest := by
  have hf4 : ∀ l2 : TableLayer, benignMsgs
      (if kwargs.any (fun kv => !(trait_names.contains kv.1)) then
        (⟨l2, [], [], some "KeyError: a key does not match any layer trait name"⟩ : Out)
      else applyKwargs l2 kwargs).msgs := by
    intro l2
    by_cases hbad : kwargs.any (fun kv => !(trait_names.contains kv.1)) = true
    · rw [if_pos hbad]; exact benignMsgs_nil
    · rw [if_neg hbad]; exact benign_applyKwargs l2 kwargs hk
  have hf5 : ∀ l2 : TableLayer, benignMsgs
      (if (kwargs.map Prod.fst).contains "lon_att" then okOut l2
      else
        match defaultAttVal (guess_lon_lat_columns t.colnames).1 t 0 with
        | some s => set_lon_att l2 s
        | none => (⟨l2, [], [], some "IndexError"⟩ : Out)).msgs := by
    intro l2
    by_cases hcc : (kwargs.map Prod.fst).contains "lon_att" = true
    · rw [if_pos hcc]; exact benign_okOut l2
    · rw [if_neg hcc]
      cases hda : defaultAttVal (guess_lon_lat_columns t.colnames).1 t 0 with
      | none => exact benignMsgs_nil
      | some s => exact benign_set_lon_att l2 s
  have hf6 : ∀ l2 : TableLayer, benignMsgs
      (if (kwargs.map Prod.fst).contains "lat_att" then okOut l2
      else
        match defaultAttVal (guess_lon_lat_columns t.colnames).2 t 1 with
        | some s => set_lat_att l2 s
        | none => (⟨l2, [], [], some "IndexError"⟩ : Out)).msgs := by
    intro l2
    by_cases hcc : (kwargs.map Prod.fst).contains "lat_att" = true
    · rw [if_pos hcc]; exact benign_okOut l2
    · rw [if_neg hcc]
      cases hda : defaultAttVal (guess_lon_lat_columns t.colnames).2 t 1 with
      | none => exact benignMsgs_nil
      | some s => exact benign_set_lat_att l2 s
  obtain ⟨rest, hb, hmsgs⟩ := chain_decomp
    (seqOut (seqOut (seqOut
        (⟨freshLayer (some t) frame id,
          [Msg.create id (b64encode (asciiReplaceBytes (crlf (csvOfTable t)))) frame],
          [], none⟩ : Out)
        (fun l => emit l "size_scale" (TValue.num l.size_scale)))
        (fun l => emit l "color" (TValue.str l.color)))
        (fun l => emit l "opacity" (TValue.num l.opacity)))
    _ _ _ hf4 hf5 hf6
  exact ⟨rest, hb, hmsgs⟩

/-- C6: for every construction whose overrides mapping contains none of
size_scale, color, opacity, exactly one table_layer_create message is
sent and exactly one table_layer_set message for each of scaleFactor,
color and opacity, and those three set messages carry the default
values 10, white and 1; no hypothesis on completion is needed, since
the forced-default pass runs before override application can fail. -/
theorem C6_forced_defaults_once (t : Table) (frame id : String)
    (kwargs : List (String × TValue))
    (hk : ∀ kv ∈ kwargs, kv.1 ≠ "size_scale" ∧ kv.1 ≠ "color" ∧ kv.1 ≠ "opacity") :
    (initTableLayer (some t) frame id kwargs).msgs.countP isCreateMsg = 1 ∧
    (initTableLayer (some t) frame id kwargs).msgs.countP (isSetFor "scaleFactor") = 1 ∧
    (initTableLayer (some t) frame id kwargs).msgs.countP (isSetFor "color") = 1 ∧
    (initTableLayer (some t) frame id kwargs).msgs.countP (isSetFor "opacity") = 1 ∧
    Msg.set id "scaleFactor" (TValue.num 10) ∈ (initTableLayer (some t) frame id kwargs).msgs ∧
    Msg.set id "color" (TValue.str "white") ∈ (initTableLayer (some t) frame id kwargs).msgs ∧
    Msg.set id "opacity" (TValue.num 1) ∈ (initTableLayer (some t) frame id kwargs).msgs := by
  obtain ⟨rest, hb, hmsgs⟩ := init_msgs_decomp t frame id kwargs hk
  have hpC : ∀ m, benignMsg m = true → isCreateMsg m = false := fun m hm => by
    simp [benignMsg] at hm
    exact hm.1.1.1
  have hpS : ∀ m, benignMsg m = true → isSetFor "scaleFactor" m = false := fun m hm => by
    simp [benignMsg] at hm
    exact hm.1.1.2
  have hpCol : ∀ m, benignMsg m = true → isSetFor "color" m = false := fun m hm => by
    simp [benignMsg] at hm
    exact hm.1.2
  have hpO : ∀ m, benignMsg m = true → isSetFor "opacity" m = false := fun m hm => by
    simp [benignMsg] at hm
    exact hm.2
  rw [hmsgs]
  refine ⟨?_, ?_, ?_, ?_, ?_, ?_, ?_⟩
  · rw [List.countP_append, countP_eq_zero_of_benign hpC hb]
    rfl
  · rw [List.countP_append, countP_eq_zero_of_benign hpS hb]
    rfl
  · rw [List.countP_append, countP_eq_zero_of_benign hpCol hb]
    rfl
  · rw [List.countP_append, countP_eq_zero_of_benign hpO hb]
    rfl
  · exact List.mem_append_left _ (List.mem_cons_of_mem _ (List.mem_cons_self _ _))
  · exact List.mem_append_left _
      (List.mem_cons_of_mem _ (List.mem_cons_of_mem _ (List.mem_cons_self _ _)))
  · exact List.mem_append_left _
      (List.mem_cons_of_mem _ (List.mem_cons_of_mem _
        (List.mem_cons_of_mem _ (List.mem_cons_self _ _))))

/-- C6 witness at a concrete table with no overrides. -/
theorem C6_witness :
    (initTableLayer (some tblRaDec) "Sky" "w6" []).msgs.countP isCreateMsg = 1 ∧
    (initTableLayer (some tblRaDec) "Sky" "w6" []).msgs.countP (isSetFor "scaleFactor") = 1 ∧
    (initTableLayer (some tblRaDec) "Sky" "w6" []).msgs.countP (isSetFor "color") = 1 ∧
    (initTableLayer (some tblRaDec) "Sky" "w6" []).msgs.countP (isSetFor "opacity") = 1 ∧
    Msg.set "w6" "scaleFactor" (TValue.num 10) ∈
      (initTableLayer (some tblRaDec) "Sky" "w6" []).msgs ∧
    Msg.set "w6" "color" (TValue.str "white") ∈
      (initTableLayer (some tblRaDec) "Sky" "w6" []).msgs ∧
    Msg.set "w6" "opacity" (TValue.num 1) ∈
      (initTableLayer (some tblRaDec) "Sky" "w6" []).msgs :=
  C6_forced_defaults_once tblRaDec "Sky" "w6" []
    (fun kv h => absurd h (List.not_mem_nil kv))

lemma contains_eq_mem (l : List String) (a : String) : l.contains a = true ↔ a ∈ l :=
  ⟨List.mem_of_elem_eq_true, List.elem_eq_true_of_mem⟩

lemma keys_upd {a : Type} (ps : List (String × a)) (k : String) (v : a) :
    (ps.map (fun p => if p.1 == k then (p.1, v) else p)).map Prod.fst = ps.map Prod.fst := by
  induction ps with
  | nil => rfl
  | cons p ps ih =>
    by_cases h : (p.1 == k) = true
    · simp only [List.map_cons, if_pos h]
      rw [ih]
    · simp only [List.map_cons, if_neg h]
      rw [ih]

lemma alookup_of_mem_nodup {a : Type} (ps : List (String × a)) (k : String) (x : a)
    (hnd : (ps.map Prod.fst).Nodup) (hm : (k, x) ∈ ps) :
    ps.find? (fun p => p.1 == k) = some (k, x) := by
  induction ps with
  | nil => cases hm
  | cons p ps ih =>
    rcases List.mem_cons.mp hm with he | hm2
    · subst he
      simp [List.find?]
    · have hk : p.1 ≠ k := by
        intro he
        have hmem : k ∈ ps.map Prod.fst := by
          exact List.mem_map_of_mem Prod.fst hm2
        rw [List.map_cons, List.nodup_cons] at hnd
        rw [he] at hnd
        exact hnd.1 hmem
      have hb : (p.1 == k) = false := by simpa using hk
      simp only [List.find?, hb]
      exact ih (by rw [List.map_cons, List.nodup_cons] at hnd; exact hnd.2) hm2

lemma afind_upd_ne {a : Type} (ps : List (String × a)) (k : String) (v : a) (q : String)
    (h : q ≠ k) :
    (ps.map (fun p => if p.1 == k then (p.1, v) else p)).find? (fun p => p.1 == q) =
      ps.find? (fun p => p.1 == q) := by
  induction ps with
  | nil => rfl
  | cons p ps ih =>
    by_cases hpk : (p.1 == k) = true
    · have hp1 : p.1 = k := by simpa using hpk
      have hq : (p.1 == q) = false := by simp [hp1]; exact fun he => h he.symm
      simp only [List.map_cons, hpk, if_true, List.find?, hq]
      exact ih
    · have hpk2 : (p.1 == k) = false := by simpa using hpk
      simp only [List.map_cons, hpk2, Bool.false_eq_true, if_false, List.find?]
      cases hq : (p.1 == q) with
      | true => rfl
      | false => exact ih

lemma lookupL_upd_ne (w : World) (lid : String) (cfg : LayerCore) (q : String)
    (h : q ≠ lid) : lookupL (updL w lid cfg) q = lookupL w q := by
  unfold lookupL updL
  dsimp only
  rw [afind_upd_ne w.layers lid cfg q h]

lemma backrefOk_upd_ne (w : World) (lid : String) (cfg : LayerCore) (m q : String)
    (h : q ≠ lid) : backrefOk (updL w lid cfg) m q = backrefOk w m q := by
  unfold backrefOk
  rw [lookupL_upd_ne w lid cfg q h]

lemma backrefOk_updM (w : World) (mid : String) (lst : List String) (m q : String) :
    backrefOk (updM w mid lst) m q = backrefOk w m q := rfl

/-- The Boolean invariant unpacked. -/
lemma invariantW_iff (w : World) : invariantW w = true ↔
    ((w.managers.map Prod.fst).Nodup ∧ (w.layers.map Prod.fst).Nodup ∧
     ∀ p ∈ w.managers, p.2.Nodup ∧ ∀ lid ∈ p.2, backrefOk w p.1 lid = true) := by
  simp [invariantW, List.all_eq_true, Bool.and_eq_true, decide_eq_true_eq, and_assoc]

/-- Flipping the removed flag (keeping the back-reference) preserves the
invariant. -/
lemma inv_set_removed (w : World) (lid : String) (cfg : LayerCore) (b : Bool)
    (hw : invariantW w = true) (hL : lookupL w lid = some cfg) :
    invariantW (updL w lid ⟨b, cfg.manager⟩) = true := by
  rw [invariantW_iff] at hw ⊢
  obtain ⟨h1, h2, h3⟩ := hw
  refine ⟨h1, ?_, ?_⟩
  · have : (updL w lid ⟨b, cfg.manager⟩).layers.map Prod.fst = w.layers.map Prod.fst :=
      keys_upd w.layers lid ⟨b, cfg.manager⟩
    rw [this]
    exact h2
  · intro p hp
    refine ⟨(h3 p hp).1, ?_⟩
    intro lid2 hl2
    by_cases he : lid2 = lid
    · subst he
      have hb := (h3 p hp).2 lid2 hl2
      unfold backrefOk at hb ⊢
      rw [lookupL_updL_self w lid2 cfg ⟨b, cfg.manager⟩ hL]
      rw [hL] at hb
      exact hb
    · rw [backrefOk_upd_ne w lid ⟨b, cfg.manager⟩ p.1 lid2 he]
      exact (h3 p hp).2 lid2 hl2

/-- Erasing a layer id from a manager sequence preserves the invariant. -/
lemma inv_erase (w : World) (mid : String) (lst : List String)
    (hw : invariantW w = true) (hM : lookupM w mid = some lst) (lid : String) :
    invariantW (updM w mid (lst.erase lid)) = true := by
  rw [invariantW_iff] at hw ⊢
  obtain ⟨h1, h2, h3⟩ := hw
  refine ⟨?_, h2, ?_⟩
  · have hk : (updM w mid (lst.erase lid)).managers.map Prod.fst = w.managers.map Prod.fst :=
      keys_upd w.managers mid (lst.erase lid)
    rw [hk]
    exact h1
  · intro p2 hp2
    obtain ⟨p, hp, hfp⟩ := List.mem_map.mp hp2
    by_cases hpk : (p.1 == mid) = true
    · have hp1 : p.1 = mid := by simpa using hpk
      have hlst : p.2 = lst := by
        have hfind := alookup_of_mem_nodup w.managers mid p.2 h1 (by rw [← hp1]; exact hp)
        unfold lookupM at hM
        rw [hfind] at hM
        simpa using hM
      rw [if_pos hpk] at hfp
      subst hfp
      refine ⟨?_, ?_⟩
      · dsimp only
        rw [← hlst]
        exact List.Nodup.erase lid (h3 p hp).1
      · intro lid2 hl2
        dsimp only at hl2
        rw [backrefOk_updM]
        dsimp only
        exact (h3 p hp).2 lid2 (hlst ▸ List.mem_of_mem_erase hl2)
    · rw [if_neg hpk] at hfp
      subst hfp
      refine ⟨(h3 p hp).1, ?_⟩
      intro lid2 hl2
      rw [backrefOk_updM]
      exact (h3 p hp).2 lid2 hl2

/-- _add_layer preserves the invariant provided the layer does not sit
in a different manager sequence. -/
lemma inv_add_layer (w : World) (mid lid : String)
    (hw : invariantW w = true)
    (hsafe : ∀ p ∈ w.managers, p.1 = mid ∨ lid ∉ p.2) :
    invariantW (manager_add_layer w mid lid).1 = true := by
  unfold manager_add_layer
  cases hM : lookupM w mid with
  | none => exact hw
  | some lst =>
    dsimp only
    by_cases hc : lst.contains lid = true
    · rw [if_pos hc]
      exact hw
    · rw [if_neg hc]
      cases hL : lookupL w lid with
      | none => exact hw
      | some cfg =>
        dsimp only
        have hlidlst : lid ∉ lst := fun hmem => hc ((contains_eq_mem lst lid).mpr hmem)
        rw [invariantW_iff] at hw ⊢
        obtain ⟨h1, h2, h3⟩ := hw
        have hmgr : (updL (updM w mid (lst ++ [lid])) lid ⟨cfg.removed, some mid⟩).managers
            = w.managers.map (fun p => if p.1 == mid then (p.1, lst ++ [lid]) else p) := rfl
        have hbr0 : ∀ m q, backrefOk (updL (updM w mid (lst ++ [lid])) lid
            ⟨cfg.removed, some mid⟩) m q
            = backrefOk (updL w lid ⟨cfg.removed, some mid⟩) m q := fun m q => rfl
        refine ⟨?_, ?_, ?_⟩
        · rw [hmgr, keys_upd]
          exact h1
        · have hlay : (updL (updM w mid (lst ++ [lid])) lid ⟨cfg.removed, some mid⟩).layers.map Prod.fst
              = w.layers.map Prod.fst := keys_upd w.layers lid ⟨cfg.removed, some mid⟩
          rw [hlay]
          exact h2
        · intro p2 hp2
          rw [hmgr] at hp2
          obtain ⟨p, hp, hfp⟩ := List.mem_map.mp hp2
          by_cases hpk : (p.1 == mid) = true
          · have hp1 : p.1 = mid := by simpa using hpk
            have hlst : p.2 = lst := by
              have hfind := alookup_of_mem_nodup w.managers mid p.2 h1 (by rw [← hp1]; exact hp)
              unfold lookupM at hM
              rw [hfind] at hM
              simpa using hM
            rw [if_pos hpk] at hfp
            subst hfp
            constructor
            · dsimp only
              rw [List.nodup_append]
              refine ⟨by rw [← hlst]; exact (h3 p hp).1, List.nodup_singleton lid, ?_⟩
              intro x hx hx2
              rw [List.mem_singleton] at hx2
              subst hx2
              exact hlidlst hx
            · intro lid2 hl2
              dsimp only at hl2 ⊢
              rw [hbr0]
              rcases List.mem_append.mp hl2 with hin | hin
              · have hne : lid2 ≠ lid := fun he => hlidlst (he ▸ hin)
                rw [backrefOk_upd_ne w lid ⟨cfg.removed, some mid⟩ p.1 lid2 hne]
                exact (h3 p hp).2 lid2 (hlst ▸ hin)
              · rw [List.mem_singleton] at hin
                subst hin
                unfold backrefOk
                rw [lookupL_updL_self w lid2 cfg ⟨cfg.removed, some mid⟩ hL]
                dsimp only
                rw [hp1]
                simp
          · rw [if_neg hpk] at hfp
            subst hfp
            refine ⟨(h3 p hp).1, ?_⟩
            intro lid2 hl2
            rw [hbr0]
            have hnotin : lid ∉ p.2 := by
              rcases hsafe p hp with he | hni
              · exact absurd he (by simpa using hpk)
              · exact hni
            have hne : lid2 ≠ lid := fun he => hnotin (he ▸ hl2)
            rw [backrefOk_upd_ne w lid ⟨cfg.removed, some mid⟩ p.1 lid2 hne]
            exact (h3 p hp).2 lid2 hl2

/-- Looking a layer up in a world extended with a fresh entry is
unchanged for present layers. -/
lemma lookupL_extend (w : World) (entry : String × LayerCore) (q : String)
    (h : (lookupL w q).isSome = true) :
    lookupL ⟨w.managers, w.layers ++ [entry]⟩ q = lookupL w q := by
  unfold lookupL at h ⊢
  dsimp only
  rw [List.find?_append]
  cases hf : w.layers.find? (fun p => p.1 == q) with
  | none => rw [hf] at h; simp at h
  | some r => rfl

/-- add_data_layer preserves the invariant for a fresh layer id. -/
lemma inv_addData (w : World) (mid lid : String)
    (hw : invariantW w = true) (hfresh : lookupL w lid = none) :
    invariantW (manager_add_data_layer w mid lid).1 = true := by
  unfold manager_add_data_layer
  have hkey : lid ∉ w.layers.map Prod.fst := by
    intro hmem
    obtain ⟨p, hp, hp1⟩ := List.mem_map.mp hmem
    have : w.layers.find? (fun p => p.1 == lid) = none := by
      unfold lookupL at hfresh
      cases hf : w.layers.find? (fun p => p.1 == lid) with
      | none => rfl
      | some r => rw [hf] at hfresh; simp at hfresh
    have := List.find?_eq_none.mp this p hp
    simp [hp1] at this
  have hw1 : invariantW ⟨w.managers, w.layers ++ [(lid, ⟨false, none⟩)]⟩ = true := by
    rw [invariantW_iff] at hw ⊢
    obtain ⟨h1, h2, h3⟩ := hw
    refine ⟨h1, ?_, ?_⟩
    · dsimp only
      rw [List.map_append]
      simp [List.nodup_append, hkey]
      exact h2
    · intro p hp
      refine ⟨(h3 p hp).1, ?_⟩
      intro lid2 hl2
      have hb := (h3 p hp).2 lid2 hl2
      have hsome : (lookupL w lid2).isSome = true := by
        unfold backrefOk at hb
        cases hf : lookupL w lid2 with
        | none => rw [hf] at hb; simp at hb
        | some c => rfl
      unfold backrefOk at hb ⊢
      rw [lookupL_extend w (lid, ⟨false, none⟩) lid2 hsome]
      exact hb
  have hsafe : ∀ p ∈ (⟨w.managers, w.layers ++ [(lid, ⟨false, none⟩)]⟩ : World).managers,
      p.1 = mid ∨ lid ∉ p.2 := by
    intro p hp
    right
    intro hmem
    rw [invariantW_iff] at hw
    have hb := (hw.2.2 p hp).2 lid hmem
    unfold backrefOk at hb
    rw [hfresh] at hb
    simp at hb
  exact inv_add_layer _ mid lid hw1 hsafe

/-- Both removal operations preserve the invariant at every fuel. -/
lemma inv_remove_all : ∀ fuel : Nat,
    (∀ w lid, invariantW w = true → invariantW (layer_remove_f fuel w lid).1 = true) ∧
    (∀ w mid lid, invariantW w = true →
      invariantW (manager_remove_layer_f fuel w mid lid).1 = true) := by
  intro fuel
  induction fuel with
  | zero => exact ⟨fun w lid hw => hw, fun w mid lid hw => hw⟩
  | succ n ih =>
    constructor
    · intro w lid hw
      rw [layer_remove_f_succ]
      cases hL : lookupL w lid with
      | none => exact hw
      | some cfg =>
        dsimp only
        by_cases hr : cfg.removed = true
        · rw [if_pos hr]
          exact hw
        · rw [if_neg hr]
          have hw1 : invariantW (updL w lid ⟨true, cfg.manager⟩) = true :=
            inv_set_removed w lid cfg true hw hL
          cases hm : cfg.manager with
          | none =>
            rw [hm] at hw1
            exact hw1
          | some mid =>
            rw [hm] at hw1
            dsimp only
            rcases hmr : manager_remove_layer_f n (updL w lid ⟨true, some mid⟩) mid lid
              with ⟨w2, ms2, e2⟩
            have h2 := ih.2 (updL w lid ⟨true, some mid⟩) mid lid hw1
            rw [hmr] at h2
            exact h2
    · intro w mid lid hw
      rw [manager_remove_layer_f_succ]
      cases hM : lookupM w mid with
      | none => exact hw
      | some lst =>
        dsimp only
        by_cases hc : lst.contains lid = true
        · rw [if_pos hc]
          rcases hlr : layer_remove_f n w lid with ⟨w1, ms, e⟩
          have h1 := ih.1 w lid hw
          rw [hlr] at h1
          cases e with
          | some err => exact h1
          | none =>
            dsimp only
            cases hM1 : lookupM w1 mid with
            | none => exact h1
            | some lst1 =>
              dsimp only
              by_cases hc1 : lst1.contains lid = true
              · rw [if_pos hc1]
                exact inv_erase w1 mid lst1 h1 hM1 lid
              · rw [if_neg hc1]
                exact h1
        · rw [if_neg hc]
          exact hw

/-- Every container operation preserves the invariant under the safety
side condition. -/
lemma inv_stepW (w : World) (op : WOp) (hw : invariantW w = true)
    (hop : safeOp w op = true) : invariantW (stepW w op) = true := by
  cases op with
  | attach mid lid =>
    simp only [safeOp] at hop
    apply inv_add_layer w mid lid hw
    intro p hp
    have hpp : p.1 = mid ∨ p.2.contains lid = false := by
      have hx := List.all_eq_true.mp hop p hp
      simpa using hx
    rcases hpp with h | h
    · exact Or.inl h
    · right
      intro hmem
      rw [(contains_eq_mem p.2 lid).mpr hmem] at h
      simp at h
  | addData mid lid =>
    simp only [safeOp] at hop
    apply inv_addData w mid lid hw
    unfold lookupL
    cases hf : w.layers.find? (fun p => p.1 == lid) with
    | none => rfl
    | some r =>
      exfalso
      have hr := List.find?_some hf
      have hmem := List.mem_of_find?_eq_some hf
      have : r.1 ∈ w.layers.map Prod.fst := List.mem_map_of_mem Prod.fst hmem
      have hr1 : r.1 = lid := by simpa using hr
      rw [hr1] at this
      have := (contains_eq_mem _ lid).mpr this
      rw [this] at hop
      simp at hop
  | removeLayer mid lid => exact (inv_remove_all 9).2 w mid lid hw
  | layerRem lid => exact (inv_remove_all 9).1 w lid hw

/-- Running a safe sequence of operations preserves the invariant. -/
lemma inv_runW (w : World) (ops : List WOp) (hw : invariantW w = true)
    (hs : safeOps w ops = true) : invariantW (runW w ops) = true := by
  induction ops generalizing w with
  | nil => exact hw
  | cons op ops ih =>
    simp only [safeOps, Bool.and_eq_true] at hs
    exact ih (stepW w op) (inv_stepW w op hw hs.1) hs.2

/-- C8 counterexample: attaching one layer to two managers (each attach
legal on its own, since _add_layer only checks its own sequence) leaves
the layer in the first manager sequence with its back-reference pointing
at the second manager - the claimed invariant fails after a sequence of
attach operations. -/
theorem C8_counterexample :
    invariantW ⟨[("m1", []), ("m2", [])], [("l", ⟨false, none⟩)]⟩ = true ∧
    invariantW (runW ⟨[("m1", []), ("m2", [])], [("l", ⟨false, none⟩)]⟩
      [WOp.attach "m1" "l", WOp.attach "m2" "l"]) = false := by
  decide

/-- C8 amended: the invariant (no layer twice in a manager sequence;
every layer in a sequence points back at that manager) holds after every
sequence of attach, add_data_layer, remove_layer and layer.remove
operations provided no attach targets a layer currently sitting in a
different manager sequence (and add_data_layer ids are fresh); moreover
attach raises when the layer is already present and remove_layer raises
when it is absent, in both cases leaving the world unchanged. -/
theorem C8_amended_invariant (w : World) (ops : List WOp)
    (hw : invariantW w = true) (hs : safeOps w ops = true) :
    invariantW (runW w ops) = true ∧
    (∀ (w2 : World) (mid lid : String) (lst : List String),
        lookupM w2 mid = some lst → lst.contains lid = true →
        manager_add_layer w2 mid lid =
          (w2, some "ValueError: layer already exists in layer manager")) ∧
    (∀ (w2 : World) (mid lid : String) (lst : List String),
        lookupM w2 mid = some lst → lst.contains lid = false →
        manager_remove_layer w2 mid lid =
          (w2, [], some "ValueError: layer not in layer manager")) := by
  refine ⟨inv_runW w ops hw hs, ?_, ?_⟩
  · intro w2 mid lid lst hM hc
    unfold manager_add_layer
    rw [hM]
    dsimp only
    rw [if_pos hc]
  · intro w2 mid lid lst hM hc
    unfold manager_remove_layer
    rw [show (9 : Nat) = 8 + 1 from rfl, manager_remove_layer_f_succ, hM]
    dsimp only
    rw [if_neg ?hng]
    case hng =>
      intro h
      rw [hc] at h
      simp at h

/-- C8 witness: a concrete safe run (attach then remove) preserving the
invariant. -/
theorem C8_witness :
    invariantW (runW ⟨[("m", [])], [("l", ⟨false, none⟩)]⟩
      [WOp.attach "m" "l", WOp.layerRem "l"]) = true :=
  (C8_amended_invariant ⟨[("m", [])], [("l", ⟨false, none⟩)]⟩
    [WOp.attach "m" "l", WOp.layerRem "l"] (by decide) (by decide)).1
